import Mathlib

/-!
# baggins: job tracking and the FFmpeg worker pool

A shallow embedding of `internal/processor/worker_pool.go`,
`internal/processor/processor.go` and `internal/api/routes.go`.

Conventions of the embedding.

* A Go `error` value is `Option Error`; `none` is the nil error.
* A Go `map[string]V` is an association list with at most one entry per key
  (`mapGet`, `mapSet`, `mapDelete`).
* The buffered channel `sem chan struct{}` carries no data, so it is its capacity
  and the number of queued elements.
* A call that blocks (a `select` with no ready case, a receive on an empty channel)
  returns `none`.
* Scheduler choices and the results of external calls (HTTP, file system, yt-dlp,
  ffmpeg, uuid) are explicit arguments.
* The assignments a goroutine makes to its job are recorded in order, and a read of the
  job by another goroutine sees the job after some prefix of them.
-/

namespace Baggins

/-! ## Go values -/

/-- A non-nil Go error, identified by its message. -/
structure Error where
  msg : String
deriving DecidableEq, Repr

/-- The shape of a `context.Context`: how it was derived. Whether it is done is
run-time state and is passed separately to the code that inspects it. -/
inductive Context where
  | Background
  | WithTimeout (parent : Context) (minutes : Nat)
  | WithCancel (parent : Context)
deriving DecidableEq, Repr

/-- A `context.CancelFunc`, identified by the context it cancels. -/
structure CancelFunc where
  cancels : Context
deriving DecidableEq, Repr

/-- The buffered channel `chan struct{}`: capacity and current length. -/
structure Chan where
  cap : Nat
  len : Nat
deriving DecidableEq, Repr

/-! ## Go maps with string keys -/

/-- Map lookup `m[k]` in its two-result form. -/
def mapGet {β : Type} : List (String × β) → String → Option β
  | [], _ => none
  | (k', v) :: rest, k => if k' = k then some v else mapGet rest k

/-- The builtin `delete(m, k)`. -/
def mapDelete {β : Type} (m : List (String × β)) (k : String) : List (String × β) :=
  m.filter (fun e => decide (e.1 ≠ k))

/-- The assignment `m[k] = v`. -/
def mapSet {β : Type} (m : List (String × β)) (k : String) (v : β) : List (String × β) :=
  (k, v) :: mapDelete m k

/-- The keys of a map. -/
def mapKeys {β : Type} (m : List (String × β)) : List String :=
  m.map (fun e => e.1)

/-! ## worker_pool.go -/

/-- The struct `FFmpegWorkerPool` (the mutex is not modelled: every method below is one
atomic step). -/
structure FFmpegWorkerPool where
  maxWorkers : Int
  sem : Chan
  jobs : List (String × CancelFunc)
deriving DecidableEq, Repr

/-- The constructor `NewFFmpegWorkerPool`: `make(chan struct{}, maxWorkers)` panics on a negative size,
in which case no pool is returned. -/
def NewFFmpegWorkerPool (maxWorkers : Int) : Option FFmpegWorkerPool :=
  if maxWorkers < 0 then none
  else some { maxWorkers := maxWorkers, sem := { cap := maxWorkers.toNat, len := 0 }, jobs := [] }

/-- The pool after the first `select` case of `AcquireWorker` has run: one element sent
on `sem`, and the cancel function of the derived context stored under `jobID`. -/
def takeSlot (p : FFmpegWorkerPool) (ctx : Context) (jobID : String) : FFmpegWorkerPool :=
  { p with
    sem := { p.sem with len := p.sem.len + 1 }
    jobs := mapSet p.jobs jobID ⟨Context.WithCancel ctx⟩ }

/-- The method `AcquireWorker`. `ctxErr` is `ctx.Err()`: `ctx.Done()` is closed exactly when it is
non-nil. `pickSend` is the choice `select` makes when both cases are ready. The result
is the returned pair `(context.Context, error)` and the pool afterwards; `none` when
neither case is ready and the call blocks. -/
def AcquireWorker (p : FFmpegWorkerPool) (ctx : Context) (ctxErr : Option Error)
    (pickSend : Bool) (jobID : String) :
    Option ((Option Context × Option Error) × FFmpegWorkerPool) :=
  match decide (p.sem.len < p.sem.cap), ctxErr with
  | true, none => some ((some (Context.WithCancel ctx), none), takeSlot p ctx jobID)
  | true, some e =>
    if pickSend then some ((some (Context.WithCancel ctx), none), takeSlot p ctx jobID)
    else some ((none, some e), p)
  | false, some e => some ((none, some e), p)
  | false, none => none

/-- The method `ReleaseWorker`: cancel and delete the entry if there is one, then receive from
`sem`. The receive blocks on an empty channel (`none`). -/
def ReleaseWorker (p : FFmpegWorkerPool) (jobID : String) : Option FFmpegWorkerPool :=
  let jobs1 := match mapGet p.jobs jobID with
    | some _ => mapDelete p.jobs jobID
    | none => p.jobs
  if p.sem.len = 0 then none
  else some { p with jobs := jobs1, sem := { p.sem with len := p.sem.len - 1 } }

/-- The method `CancelJob`: the returned boolean and the pool afterwards. -/
def CancelJob (p : FFmpegWorkerPool) (jobID : String) : Bool × FFmpegWorkerPool :=
  match mapGet p.jobs jobID with
  | some _ => (true, { p with jobs := mapDelete p.jobs jobID })
  | none => (false, p)

/-- The method `ActiveWorkers`: `len(p.sem)`. -/
def ActiveWorkers (p : FFmpegWorkerPool) : Int :=
  (p.sem.len : Int)

/-! ### Sequences of pool calls -/

/-- One completed call on the pool. -/
inductive PoolOp where
  | AcquireWorker (ctx : Context) (ctxErr : Option Error) (pickSend : Bool) (jobID : String)
  | ReleaseWorker (jobID : String)
  | CancelJob (jobID : String)
deriving DecidableEq, Repr

/-- The pool together with two ghost lists. `admitted` holds the job ids of the units
that are past admission: their `AcquireWorker` succeeded and their `ReleaseWorker` has
not run. `cancelled` holds the admitted job ids on which `CancelJob` has been called
since their admission. -/
structure PoolState where
  pool : FFmpegWorkerPool
  admitted : List String
  cancelled : List String
deriving DecidableEq, Repr

/-- The state around a pool on which no call has been made. -/
def PoolState.init (p : FFmpegWorkerPool) : PoolState :=
  { pool := p, admitted := [], cancelled := [] }

/-- One call applied to the pool. A call that blocks does not complete (`none`), and a
`ReleaseWorker` is issued only by a unit that was admitted. -/
def stepOp (s : PoolState) : PoolOp → Option PoolState
  | PoolOp.AcquireWorker ctx ctxErr pickSend jobID =>
    match AcquireWorker s.pool ctx ctxErr pickSend jobID with
    | none => none
    | some ((some _, _), p1) => some { s with pool := p1, admitted := jobID :: s.admitted }
    | some ((none, _), p1) => some { s with pool := p1 }
  | PoolOp.ReleaseWorker jobID =>
    if jobID ∈ s.admitted then
      match ReleaseWorker s.pool jobID with
      | none => none
      | some p1 =>
        some { pool := p1, admitted := s.admitted.erase jobID
               cancelled := s.cancelled.filter (fun k => decide (k ≠ jobID)) }
    else none
  | PoolOp.CancelJob jobID =>
    some { s with
           pool := (CancelJob s.pool jobID).2
           cancelled := if jobID ∈ s.admitted then jobID :: s.cancelled else s.cancelled }

/-- A sequence of calls applied in order. -/
def runOps (s : PoolState) : List PoolOp → Option PoolState
  | [] => some s
  | op :: rest =>
    match stepOp s op with
    | none => none
    | some s1 => runOps s1 rest

/-- Job ids are not reused while in flight: along the run, no `AcquireWorker` is called
under a job id that is admitted at that moment. -/
def freshAcquires (s : PoolState) : List PoolOp → Bool
  | [] => true
  | op :: rest =>
    (match op with
      | PoolOp.AcquireWorker _ _ _ jobID => decide (jobID ∉ s.admitted)
      | _ => true) &&
    (match stepOp s op with
      | none => true
      | some s1 => freshAcquires s1 rest)

/-! ## processor.go: jobs -/

/-- The struct `Job`. -/
structure Job where
  ID : String
  Status : String
  FilePath : String
  Error : Option Error
deriving DecidableEq, Repr

/-- One assignment to a field of a job made by the goroutine that owns it. -/
inductive JobWrite where
  | Status (s : String)
  | FilePath (path : String)
  | Error (e : Option Error)
deriving DecidableEq, Repr

/-- The effect of one assignment. -/
def applyWrite (j : Job) : JobWrite → Job
  | JobWrite.Status s => { j with Status := s }
  | JobWrite.FilePath path => { j with FilePath := path }
  | JobWrite.Error e => { j with Error := e }

/-- The execution of a goroutine as far as its job is concerned: the job it was handed
and the assignments it has made so far, oldest first. -/
structure Run where
  start : Job
  writes : List JobWrite
deriving DecidableEq, Repr

/-- The current value of the job. -/
def Run.job (r : Run) : Job :=
  r.writes.foldl applyWrite r.start

/-- Perform one more assignment. -/
def Run.write (r : Run) (w : JobWrite) : Run :=
  { r with writes := r.writes ++ [w] }

/-- Every value the job has had, from the value at creation to the current one. -/
def Run.history (r : Run) : List Job :=
  List.scanl applyWrite r.start r.writes

/-- A job is terminal when its status is "completed" or "failed". -/
def Job.terminal (j : Job) : Bool :=
  decide (j.Status = "completed") || decide (j.Status = "failed")

/-! ### Library functions used by processor.go -/

/-- The loop of `filepath.Ext`, over the reversed path: walk back from the end until a
separator, and return the suffix starting at the first dot met. -/
def extScan : List Char → List Char → List Char
  | [], _ => []
  | c :: rest, acc =>
    if c = '/' then []
    else if c = '.' then '.' :: acc
    else extScan rest (c :: acc)

/-- The library function `filepath.Ext`. -/
def filepath_Ext (path : String) : String :=
  String.mk (extScan path.data.reverse [])

/-- The library function `filepath.Join` of a directory name and a file name, on two elements that
`filepath.Clean` leaves alone (no separator, no dot element), as are "uploads",
"processed" and a uuid followed by an extension. -/
def filepath_Join (dir name : String) : String :=
  dir ++ "/" ++ name

/-- The error `fmt.Errorf("failed to acquire worker: %v", err)`. -/
def acquireError (err : Error) : Error :=
  ⟨"failed to acquire worker: " ++ err.msg⟩

/-- The error `fmt.Errorf("failed to find downloaded file")`. -/
def globError : Error :=
  ⟨"failed to find downloaded file"⟩

/-! ### The goroutine of DownloadMedia -/

/-- The file name the download is written to. -/
def downloadFilename (job : Job) (url : String) : String :=
  let ext := if filepath_Ext url = "" then ".mp4" else filepath_Ext url
  filepath_Join "uploads" (job.ID ++ ext)

/-- The goroutine started by `DownloadMedia`. `httpErr`, `createErr` and `copyErr` are
the errors returned by `http.Get`, `os.Create` and `io.Copy`. The deferred function
runs last and reads `job.Error`. -/
def DownloadMedia_go (job : Job) (url : String) (httpErr createErr copyErr : Option Error) :
    Run :=
  let r0 : Run := { start := job, writes := [] }
  let body : Run :=
    match httpErr with
    | some e => r0.write (JobWrite.Error (some e))
    | none =>
      match createErr with
      | some e => r0.write (JobWrite.Error (some e))
      | none =>
        match copyErr with
        | some e => r0.write (JobWrite.Error (some e))
        | none =>
          (r0.write (JobWrite.FilePath (downloadFilename job url))).write
            (JobWrite.Status "completed")
  if body.job.Error ≠ none then body.write (JobWrite.Status "failed") else body

/-! ### The goroutine of ExtractAudio -/

/-- What the environment does to one `ExtractAudio` goroutine: the state of the
five-minute context when `AcquireWorker` selects, the choice of `select`, whether
`CancelJob` is called on the job while ffmpeg runs, and the error `cmd.Run` returns. -/
structure ExtractEnv where
  ctxErr : Option Error
  pickSend : Bool
  cancelled : Bool
  ffmpegErr : Option Error
deriving DecidableEq, Repr

/-- The result of an `ExtractAudio` goroutine that has ended: its job, the pool it
leaves, and the calls it made on the pool, oldest first. -/
structure ExtractRun where
  run : Run
  pool : FFmpegWorkerPool
  calls : List PoolOp
deriving DecidableEq, Repr

/-- The context the goroutine waits on:
`context.WithTimeout(context.Background(), 5*time.Minute)`. -/
def extractCtx : Context :=
  Context.WithTimeout Context.Background 5

/-- The goroutine started by `ExtractAudio`, run against the pool on its own. `none`
when a call on the pool blocks. -/
def ExtractAudio_go (pool : FFmpegWorkerPool) (job : Job) (env : ExtractEnv) :
    Option ExtractRun :=
  let r0 : Run := { start := job, writes := [] }
  let acquire := PoolOp.AcquireWorker extractCtx env.ctxErr env.pickSend job.ID
  match AcquireWorker pool extractCtx env.ctxErr env.pickSend job.ID with
  | none => none
  | some ((_, some err), p1) =>
    some { run := (r0.write (JobWrite.Error (some (acquireError err)))).write
                    (JobWrite.Status "failed")
           pool := p1
           calls := [acquire] }
  | some ((_, none), p1) =>
    let outputPath := filepath_Join "processed" (job.ID ++ ".mp3")
    let p2 := if env.cancelled then (CancelJob p1 job.ID).2 else p1
    let body : Run :=
      match env.ffmpegErr with
      | some e => (r0.write (JobWrite.Error (some e))).write (JobWrite.Status "failed")
      | none => (r0.write (JobWrite.FilePath outputPath)).write (JobWrite.Status "completed")
    match ReleaseWorker p2 job.ID with
    | none => none
    | some p3 => some { run := body, pool := p3, calls := [acquire, PoolOp.ReleaseWorker job.ID] }

/-- The job ids of the `ReleaseWorker` calls in a list of pool calls. -/
def releaseCalls : List PoolOp → List String
  | [] => []
  | PoolOp.ReleaseWorker jobID :: rest => jobID :: releaseCalls rest
  | _ :: rest => releaseCalls rest

/-! ### The processor -/

/-- A Go `float64` read from a JSON number: a finite value, of which the code only asks
whether it is greater than zero. -/
abbrev Float64 := ℚ

/-- The struct `MediaProcessor`. `Jobs` maps an id to the job its pointer points to. -/
structure MediaProcessor where
  Jobs : List (String × Job)
  workerPool : FFmpegWorkerPool
deriving DecidableEq, Repr

/-- The constructor `NewMediaProcessor`: an empty job map and a pool of five workers. -/
def NewMediaProcessor : Option MediaProcessor :=
  match NewFFmpegWorkerPool 5 with
  | none => none
  | some wp => some { Jobs := [], workerPool := wp }

/-- The method `DownloadMedia` up to its return: the job is created under the id `uuid` (the value
of `uuid.New().String()`), stored, and returned with a nil error; the goroutine
`DownloadMedia_go` is started. -/
def MediaProcessor.DownloadMedia (p : MediaProcessor) (uuid url : String) :
    (Job × Option Error) × MediaProcessor :=
  let _ := url
  let job : Job := { ID := uuid, Status := "downloading", FilePath := "", Error := none }
  ((job, none), { p with Jobs := mapSet p.Jobs job.ID job })

/-- The method `ExtractAudio` up to its return; the goroutine `ExtractAudio_go` is started. -/
def MediaProcessor.ExtractAudio (p : MediaProcessor) (uuid inputPath : String)
    (startTime duration : Float64) : (Job × Option Error) × MediaProcessor :=
  let _ := (inputPath, startTime, duration)
  let job : Job := { ID := uuid, Status := "processing", FilePath := "", Error := none }
  ((job, none), { p with Jobs := mapSet p.Jobs job.ID job })

/-- The method `ProcessYouTube` up to its return; the goroutine `ProcessYouTube_go` is started. -/
def MediaProcessor.ProcessYouTube (p : MediaProcessor) (uuid url : String)
    (startTime duration : Float64) : (Job × Option Error) × MediaProcessor :=
  let _ := (url, startTime, duration)
  let job : Job := { ID := uuid, Status := "processing", FilePath := "", Error := none }
  ((job, none), { p with Jobs := mapSet p.Jobs job.ID job })

/-- The method `GetJob`: `p.Jobs[id]`, nil for a missing key. -/
def MediaProcessor.GetJob (p : MediaProcessor) (id : String) : Option Job :=
  mapGet p.Jobs id

/-! ### The goroutine of ProcessYouTube -/

/-- What the environment does to one `ProcessYouTube` goroutine: the error of the yt-dlp
run, the result of `filepath.Glob`, the uuid drawn by the nested `ExtractAudio`, and the
environment of the nested goroutine. -/
structure YouTubeEnv where
  ytErr : Option Error
  globFiles : List String
  globErr : Option Error
  extractID : String
  extract : ExtractEnv
deriving DecidableEq, Repr

/-- The result of a `ProcessYouTube` goroutine that has ended: its job, the nested
extraction if one was started, and the processor it leaves, in which the job of the
nested extraction has its final value. -/
structure YouTubeRun where
  run : Run
  extract : Option ExtractRun
  proc : MediaProcessor
deriving DecidableEq, Repr

/-- The goroutine started by `ProcessYouTube`. The polling loop leaves at the first
value of the extraction job whose status is not "processing", and the two reads that
follow see that value; `none` when the loop never leaves. -/
def ProcessYouTube_go (p : MediaProcessor) (job : Job) (startTime duration : Float64)
    (env : YouTubeEnv) : Option YouTubeRun :=
  let r0 : Run := { start := job, writes := [] }
  let fail (r : Run) (e : Option Error) (x : Option ExtractRun) (q : MediaProcessor) :
      Option YouTubeRun :=
    some { run := (r.write (JobWrite.Error e)).write (JobWrite.Status "failed")
           extract := x, proc := q }
  match env.ytErr with
  | some e => fail r0 (some e) none p
  | none =>
    match env.globErr, env.globFiles with
    | none, downloadedFile :: _ =>
      let r1 := r0.write (JobWrite.FilePath downloadedFile)
      if startTime > 0 ∨ duration > 0 then
        match p.ExtractAudio env.extractID downloadedFile startTime duration with
        | ((_, some e), p1) => fail r1 (some e) none p1
        | ((extractJob, none), p1) =>
          match ExtractAudio_go p1.workerPool extractJob env.extract with
          | none => none
          | some er =>
            let q := { Jobs := mapSet p1.Jobs extractJob.ID er.run.job, workerPool := er.pool }
            match er.run.history.find? (fun j => decide (j.Status ≠ "processing")) with
            | none => none
            | some seen =>
              if seen.Error ≠ none then fail r1 seen.Error (some er) q
              else
                some { run := (r1.write (JobWrite.FilePath seen.FilePath)).write
                                (JobWrite.Status "completed")
                       extract := some er, proc := q }
      else some { run := r1.write (JobWrite.Status "completed"), extract := none, proc := p }
    | _, _ => fail r0 (some globError) none p

/-! ### The jobs of the three methods -/

/-- The method that created a job. -/
inductive JobKind where
  | download
  | extract
  | youtube
deriving DecidableEq, Repr

/-- The finished runs of the goroutines: `JobRun k r` when `r` is the run of the
goroutine of a job created by the method `k`, for some outcome of the external calls.
The job is the one the method returns; the pool and the processor the goroutine meets
are arbitrary. The paths returned by `filepath.Glob` match "uploads/<id>.*" and are not
empty. -/
inductive JobRun : JobKind → Run → Prop where
  | download (p : MediaProcessor) (uuid url : String) (httpErr createErr copyErr : Option Error) :
    JobRun JobKind.download
      (DownloadMedia_go (p.DownloadMedia uuid url).1.1 url httpErr createErr copyErr)
  | extract (p : MediaProcessor) (uuid inputPath : String) (startTime duration : Float64)
      (pool : FFmpegWorkerPool) (env : ExtractEnv) (r : ExtractRun)
      (h : ExtractAudio_go pool (p.ExtractAudio uuid inputPath startTime duration).1.1 env = some r) :
    JobRun JobKind.extract r.run
  | youtube (p : MediaProcessor) (uuid url : String) (startTime duration : Float64)
      (q : MediaProcessor) (env : YouTubeEnv) (r : YouTubeRun)
      (hglob : ∀ f, f ∈ env.globFiles → f ≠ "")
      (h : ProcessYouTube_go q (p.ProcessYouTube uuid url startTime duration).1.1
            startTime duration env = some r) :
    JobRun JobKind.youtube r.run

/-- The invariant of the data model as the specification words it: both `FilePath` and
`Error` are empty while the status is not terminal, and exactly one of them is set once
it is. -/
def Job.exactlyOneWhenTerminal (j : Job) : Bool :=
  if j.terminal then xor (decide (j.FilePath ≠ "")) (decide (j.Error ≠ none))
  else decide (j.FilePath = "") && decide (j.Error = none)

/-! ### Sequences of processor calls -/

/-- One step of the processor: a call of one of the three job-creating methods (from a
handler or from a goroutine), or one assignment by a goroutine to the job stored under
an id. -/
inductive ProcOp where
  | DownloadMedia (uuid url : String)
  | ExtractAudio (uuid inputPath : String) (startTime duration : Float64)
  | ProcessYouTube (uuid url : String) (startTime duration : Float64)
  | goWrite (id : String) (w : JobWrite)
deriving DecidableEq

/-- One step applied to the processor. -/
def stepProc (p : MediaProcessor) : ProcOp → MediaProcessor
  | ProcOp.DownloadMedia uuid url => (p.DownloadMedia uuid url).2
  | ProcOp.ExtractAudio uuid inputPath st d => (p.ExtractAudio uuid inputPath st d).2
  | ProcOp.ProcessYouTube uuid url st d => (p.ProcessYouTube uuid url st d).2
  | ProcOp.goWrite id w =>
    match mapGet p.Jobs id with
    | none => p
    | some j => { p with Jobs := mapSet p.Jobs id (applyWrite j w) }

/-- A sequence of steps applied in order. -/
def runProc (p : MediaProcessor) (ops : List ProcOp) : MediaProcessor :=
  ops.foldl stepProc p

/-- The id a step returns to its caller, if it is a call that returns a job. -/
def returnedID (p : MediaProcessor) : ProcOp → Option String
  | ProcOp.DownloadMedia uuid url => some (p.DownloadMedia uuid url).1.1.ID
  | ProcOp.ExtractAudio uuid inputPath st d => some (p.ExtractAudio uuid inputPath st d).1.1.ID
  | ProcOp.ProcessYouTube uuid url st d => some (p.ProcessYouTube uuid url st d).1.1.ID
  | ProcOp.goWrite _ _ => none

/-- The ids returned by the calls of a sequence of steps. -/
def returnedIDs (p : MediaProcessor) : List ProcOp → List String
  | [] => []
  | op :: rest => (returnedID p op).toList ++ returnedIDs (stepProc p op) rest

/-! ## routes.go -/

/-- The struct `MediaRequest`. -/
structure MediaRequest where
  URL : String
  StartTime : Float64
  Duration : Float64
deriving DecidableEq

/-- The library function `strings.Contains`. -/
def strings_Contains (s substr : String) : Bool :=
  s.data.tails.any (fun t => substr.data.isPrefixOf t)

/-- The function `isYouTubeURL`. -/
def isYouTubeURL (url : String) : Bool :=
  strings_Contains url "youtube.com" || strings_Contains url "youtu.be"

/-- The interface `MediaProcessorInterface`, over implementations with state `σ`. A
returned `*Job` is the job as its caller reads it; `none` is the nil pointer. -/
structure MediaProcessorInterface (σ : Type) where
  DownloadMedia : String → σ → (Option Job × Option Error) × σ
  ExtractAudio : String → Float64 → Float64 → σ → (Option Job × Option Error) × σ
  ProcessYouTube : String → Float64 → Float64 → σ → (Option Job × Option Error) × σ
  GetJob : String → σ → Option Job × σ

/-- A call a handler makes on the processor. -/
inductive ProcCall where
  | DownloadMedia (url : String)
  | ExtractAudio (inputPath : String) (startTime duration : Float64)
  | ProcessYouTube (url : String) (startTime duration : Float64)
  | GetJob (id : String)
deriving DecidableEq

/-- A value in a `fiber.Map`. -/
inductive Value where
  | str (s : String)
  | err (e : Option Error)
deriving DecidableEq, Repr

/-- A response: the status code and the map given to `c.JSON`. -/
structure Response where
  status : Nat
  body : List (String × Value)
deriving DecidableEq, Repr

/-- What a handler did: its response (`none` when it dereferences a nil job and panics),
the state it leaves the processor in, and the calls it made, oldest first. -/
structure Handled (σ : Type) where
  response : Option Response
  state : σ
  calls : List ProcCall

/-- The end of the `/process` handler, from the pair `(job, err)` it has reached. -/
def processRespond (job : Option Job) (err : Option Error) : Option Response :=
  match err with
  | some e => some { status := 500, body := [("error", Value.str e.msg)] }
  | none =>
    match job with
    | none => none
    | some j => some { status := 200, body := [("job_id", Value.str j.ID), ("status", Value.str j.Status)] }

/-- The handler of `POST /api/process`. `body` is the request as `c.BodyParser` decodes
it, `none` when decoding fails. -/
def processHandler {σ : Type} (proc : MediaProcessorInterface σ) (body : Option MediaRequest)
    (s : σ) : Handled σ :=
  match body with
  | none =>
    { response := some { status := 400, body := [("error", Value.str "Invalid request body")] }
      state := s, calls := [] }
  | some req =>
    if req.URL = "" then
      { response := some { status := 400, body := [("error", Value.str "URL is required")] }
        state := s, calls := [] }
    else if isYouTubeURL req.URL then
      match proc.ProcessYouTube req.URL req.StartTime req.Duration s with
      | ((job, err), s1) =>
        { response := processRespond job err, state := s1
          calls := [ProcCall.ProcessYouTube req.URL req.StartTime req.Duration] }
    else
      match proc.DownloadMedia req.URL s with
      | ((job, err), s1) =>
        if err = none ∧ (req.StartTime > 0 ∨ req.Duration > 0) then
          match job with
          | none => { response := none, state := s1, calls := [ProcCall.DownloadMedia req.URL] }
          | some j =>
            match proc.ExtractAudio j.FilePath req.StartTime req.Duration s1 with
            | ((job2, err2), s2) =>
              { response := processRespond job2 err2, state := s2
                calls := [ProcCall.DownloadMedia req.URL,
                          ProcCall.ExtractAudio j.FilePath req.StartTime req.Duration] }
        else
          { response := processRespond job err, state := s1
            calls := [ProcCall.DownloadMedia req.URL] }

/-- The handler of `GET /api/status/:id`. -/
def statusHandler {σ : Type} (proc : MediaProcessorInterface σ) (id : String) (s : σ) :
    Handled σ :=
  match proc.GetJob id s with
  | (none, s1) =>
    { response := some { status := 404, body := [("error", Value.str "Job not found")] }
      state := s1, calls := [ProcCall.GetJob id] }
  | (some job, s1) =>
    { response := some { status := 200
                         body := [("job_id", Value.str job.ID), ("status", Value.str job.Status),
                                  ("filepath", Value.str job.FilePath),
                                  ("error", Value.err job.Error)] }
      state := s1, calls := [ProcCall.GetJob id] }

/-! ### The processor of main.go behind the interface -/

/-- The state of the real processor: the `MediaProcessor` and how many uuids it has
drawn. -/
structure RealState where
  proc : MediaProcessor
  drawn : Nat
deriving DecidableEq, Repr

/-- The job a caller sees when it reads the job of a goroutine that has made the first
`seen` of its assignments. -/
def viewAfter (r : Run) (seen : Nat) : Job :=
  (r.writes.take seen).foldl applyWrite r.start

/-- The `*MediaProcessor` that main.go passes to `SetupRoutes`. `uuid` gives the
successive values of `uuid.New().String()`; `httpErr`, `createErr` and `copyErr` are the
outcomes of the download; `seen` is how many assignments the download goroutine has
made when the caller of `DownloadMedia` reads the returned job. The goroutines of the
other two methods have made none when their caller reads the returned job. -/
def realProcessor (uuid : Nat → String) (httpErr createErr copyErr : Option Error)
    (seen : Nat) : MediaProcessorInterface RealState where
  DownloadMedia url s :=
    match s.proc.DownloadMedia (uuid s.drawn) url with
    | ((job, err), p1) =>
      let view := viewAfter (DownloadMedia_go job url httpErr createErr copyErr) seen
      ((some view, err), { proc := { p1 with Jobs := mapSet p1.Jobs job.ID view }
                           drawn := s.drawn + 1 })
  ExtractAudio inputPath st d s :=
    match s.proc.ExtractAudio (uuid s.drawn) inputPath st d with
    | ((job, err), p1) => ((some job, err), { proc := p1, drawn := s.drawn + 1 })
  ProcessYouTube url st d s :=
    match s.proc.ProcessYouTube (uuid s.drawn) url st d with
    | ((job, err), p1) => ((some job, err), { proc := p1, drawn := s.drawn + 1 })
  GetJob id s := (s.proc.GetJob id, s)

/-- The mock of routes_test.go with the expectations of the tests "Process Media -
Success", "Get Job Status - Success" and "Get Job Status - Not Found": its state is the
list of calls it has received, and `DownloadMedia`, `ExtractAudio` and `GetJob` return
what the tests set up. No test sets up `ProcessYouTube`, which returns nil here. -/
def mockProcessor : MediaProcessorInterface (List ProcCall) where
  DownloadMedia url s :=
    ((some { ID := "test-job-id", Status := "downloaded", FilePath := "test-file-path",
             Error := none }, none), s ++ [ProcCall.DownloadMedia url])
  ExtractAudio inputPath st d s :=
    ((some { ID := "test-job-id", Status := "completed", FilePath := "", Error := none }, none),
     s ++ [ProcCall.ExtractAudio inputPath st d])
  ProcessYouTube url st d s := ((none, none), s ++ [ProcCall.ProcessYouTube url st d])
  GetJob id s :=
    (if id = "test-job-id" then
       some { ID := "test-job-id", Status := "completed", FilePath := "", Error := none }
     else none, s ++ [ProcCall.GetJob id])

/-! ## Lemmas on maps -/

theorem mapGet_mapDelete_self {β : Type} (m : List (String × β)) (k : String) :
    mapGet (mapDelete m k) k = none := by
  induction m with
  | nil => rfl
  | cons e rest ih =>
    obtain ⟨k1, v⟩ := e
    by_cases h : k1 = k
    · simpa [mapDelete, h] using ih
    · simpa [mapDelete, h, mapGet] using ih

theorem mapGet_mapDelete_ne {β : Type} (m : List (String × β)) (k j : String) (h : j ≠ k) :
    mapGet (mapDelete m k) j = mapGet m j := by
  induction m with
  | nil => rfl
  | cons e rest ih =>
    obtain ⟨k1, v⟩ := e
    have ih1 : mapGet (List.filter (fun e => decide (e.1 ≠ k)) rest) j = mapGet rest j := ih
    by_cases h1 : k1 = k
    · have h2 : k1 ≠ j := fun h3 => h (h3 ▸ h1)
      simp only [mapDelete, List.filter_cons, h1, ne_eq, not_true_eq_false, decide_False,
        Bool.false_eq_true, if_false, mapGet]
      rw [if_neg (h1 ▸ h2)]
      simpa using ih1
    · simp only [mapDelete, List.filter_cons, h1, ne_eq, not_false_eq_true, decide_True,
        if_true, mapGet]
      by_cases h2 : k1 = j
      · simp [h2]
      · simpa [h2] using ih1

theorem mapGet_mapSet_self {β : Type} (m : List (String × β)) (k : String) (v : β) :
    mapGet (mapSet m k v) k = some v := by
  simp [mapSet, mapGet]

theorem mapGet_mapSet_ne {β : Type} (m : List (String × β)) (k j : String) (v : β)
    (h : j ≠ k) : mapGet (mapSet m k v) j = mapGet m j := by
  have h1 : k ≠ j := fun h2 => h h2.symm
  simp [mapSet, mapGet, h1, mapGet_mapDelete_ne m k j h]

theorem mapGet_isSome_iff_mem_keys {β : Type} (m : List (String × β)) (k : String) :
    (mapGet m k).isSome = true ↔ k ∈ mapKeys m := by
  induction m with
  | nil => simp [mapGet, mapKeys]
  | cons e rest ih =>
    obtain ⟨k1, v⟩ := e
    by_cases h : k1 = k
    · simp [mapGet, mapKeys, h]
    · have h1 : k ≠ k1 := fun h2 => h h2.symm
      simpa [mapGet, mapKeys, h, h1] using ih

theorem mem_mapKeys_mapDelete {β : Type} (m : List (String × β)) (k j : String) :
    j ∈ mapKeys (mapDelete m k) ↔ j ∈ mapKeys m ∧ j ≠ k := by
  simp only [mapKeys, mapDelete, List.mem_map, List.mem_filter]
  constructor
  · rintro ⟨e, ⟨he, hk⟩, rfl⟩
    exact ⟨⟨e, he, rfl⟩, by simpa using hk⟩
  · rintro ⟨⟨e, he, rfl⟩, hk⟩
    exact ⟨e, ⟨he, by simpa using hk⟩, rfl⟩

theorem mem_mapKeys_mapSet {β : Type} (m : List (String × β)) (k j : String) (v : β) :
    j ∈ mapKeys (mapSet m k v) ↔ j = k ∨ (j ∈ mapKeys m ∧ j ≠ k) := by
  have h := mem_mapKeys_mapDelete m k j
  simp only [mapKeys] at h
  simp [mapSet, mapKeys, h]

theorem mapGet_eq_none_iff {β : Type} (m : List (String × β)) (k : String) :
    mapGet m k = none ↔ k ∉ mapKeys m := by
  rw [← mapGet_isSome_iff_mem_keys]
  cases mapGet m k <;> simp

theorem mapDelete_eq_self {β : Type} (m : List (String × β)) (k : String)
    (h : mapGet m k = none) : mapDelete m k = m := by
  rw [mapGet_eq_none_iff] at h
  simp only [mapDelete, List.filter_eq_self]
  intro e he
  have : e.1 ≠ k := fun h1 => h (h1 ▸ List.mem_map_of_mem (fun e => e.1) he)
  simpa using this

theorem mapDelete_mapDelete {β : Type} (m : List (String × β)) (k : String) :
    mapDelete (mapDelete m k) k = mapDelete m k := by
  simp [mapDelete, List.filter_filter]

theorem mapDelete_mapSet {β : Type} (m : List (String × β)) (k : String) (v : β) :
    mapDelete (mapSet m k v) k = mapDelete m k := by
  simp [mapSet, mapDelete, List.filter_filter]

/-! ## Lemmas on the pool -/

/-- The jobs of the pool after `ReleaseWorker` are the jobs before with the key deleted. -/
theorem ReleaseWorker_eq (p p1 : FFmpegWorkerPool) (jobID : String)
    (h : ReleaseWorker p jobID = some p1) :
    0 < p.sem.len ∧ p1.jobs = mapDelete p.jobs jobID ∧ p1.sem.len = p.sem.len - 1 ∧
      p1.sem.cap = p.sem.cap ∧ p1.maxWorkers = p.maxWorkers := by
  unfold ReleaseWorker at h
  by_cases h0 : p.sem.len = 0
  · simp [h0] at h
  · simp only [h0, if_false, Option.some.injEq] at h
    subst h
    refine ⟨Nat.pos_of_ne_zero h0, ?_, rfl, rfl, rfl⟩
    cases hg : mapGet p.jobs jobID with
    | none => simp [mapDelete_eq_self p.jobs jobID hg]
    | some c => simp

/-- The method `ReleaseWorker` returns when the channel is not empty. -/
theorem ReleaseWorker_some (p : FFmpegWorkerPool) (jobID : String) (h : 0 < p.sem.len) :
    ReleaseWorker p jobID =
      some { p with jobs := mapDelete p.jobs jobID, sem := { p.sem with len := p.sem.len - 1 } } := by
  unfold ReleaseWorker
  have h0 : p.sem.len ≠ 0 := Nat.pos_iff_ne_zero.1 h
  cases hg : mapGet p.jobs jobID with
  | none => simp [h0, mapDelete_eq_self p.jobs jobID hg]
  | some c => simp [h0]

theorem CancelJob_eq (p : FFmpegWorkerPool) (jobID : String) :
    (CancelJob p jobID).2 = { p with jobs := mapDelete p.jobs jobID } ∧
      (CancelJob p jobID).1 = (mapGet p.jobs jobID).isSome := by
  unfold CancelJob
  cases hg : mapGet p.jobs jobID with
  | none => simp [mapDelete_eq_self p.jobs jobID hg]
  | some c => simp

/-- The two ways `AcquireWorker` returns. -/
theorem AcquireWorker_cases (p p1 : FFmpegWorkerPool) (ctx : Context) (ctxErr : Option Error)
    (pickSend : Bool) (jobID : String) (c : Option Context) (e : Option Error)
    (h : AcquireWorker p ctx ctxErr pickSend jobID = some ((c, e), p1)) :
    (c = some (Context.WithCancel ctx) ∧ e = none ∧ p.sem.len < p.sem.cap ∧
        p1 = takeSlot p ctx jobID) ∨
      (c = none ∧ e ≠ none ∧ e = ctxErr ∧ p1 = p) := by
  unfold AcquireWorker at h
  by_cases hs : p.sem.len < p.sem.cap
  · cases ctxErr with
    | none =>
      simp only [hs, decide_True, Option.some.injEq, Prod.mk.injEq] at h
      obtain ⟨⟨rfl, rfl⟩, rfl⟩ := h
      exact Or.inl ⟨rfl, rfl, hs, rfl⟩
    | some e0 =>
      cases pickSend with
      | true =>
        simp only [hs, decide_True, if_true, Option.some.injEq, Prod.mk.injEq] at h
        obtain ⟨⟨rfl, rfl⟩, rfl⟩ := h
        exact Or.inl ⟨rfl, rfl, hs, rfl⟩
      | false =>
        simp only [hs, decide_True, Bool.false_eq_true, if_false, Option.some.injEq,
          Prod.mk.injEq] at h
        obtain ⟨⟨rfl, rfl⟩, rfl⟩ := h
        exact Or.inr ⟨rfl, by simp, rfl, rfl⟩
  · cases ctxErr with
    | none => simp [hs] at h
    | some e0 =>
      simp only [hs, decide_False, Option.some.injEq, Prod.mk.injEq] at h
      obtain ⟨⟨rfl, rfl⟩, rfl⟩ := h
      exact Or.inr ⟨rfl, by simp, rfl, rfl⟩

/-- The invariant of the pool: the capacity is fixed, the channel is never over its
capacity, its length is the number of admitted units, and every key of the registry is
an admitted unit. -/
theorem stepOp_invariant (s s1 : PoolState) (op : PoolOp) (h : stepOp s op = some s1)
    (hcap : s.pool.sem.len ≤ s.pool.sem.cap) (hlen : s.pool.sem.len = s.admitted.length)
    (hkeys : ∀ j, j ∈ mapKeys s.pool.jobs → j ∈ s.admitted) :
    s1.pool.sem.cap = s.pool.sem.cap ∧ s1.pool.maxWorkers = s.pool.maxWorkers ∧
      s1.pool.sem.len ≤ s1.pool.sem.cap ∧ s1.pool.sem.len = s1.admitted.length ∧
      ∀ j, j ∈ mapKeys s1.pool.jobs → j ∈ s1.admitted := by
  cases op with
  | AcquireWorker ctx ctxErr pickSend jobID =>
    simp only [stepOp] at h
    cases hr : AcquireWorker s.pool ctx ctxErr pickSend jobID with
    | none => simp [hr] at h
    | some r =>
      obtain ⟨⟨c, e⟩, p1⟩ := r
      rcases AcquireWorker_cases _ _ _ _ _ _ _ _ hr with ⟨rfl, rfl, hs, rfl⟩ | ⟨rfl, _, _, rfl⟩
      · simp only [hr, Option.some.injEq] at h
        subst h
        refine ⟨rfl, rfl, hs, by simp [takeSlot, hlen], ?_⟩
        intro j hj
        simp only [takeSlot, mem_mapKeys_mapSet] at hj
        rcases hj with rfl | ⟨hj, _⟩
        · exact List.mem_cons_self _ _
        · exact List.mem_cons_of_mem _ (hkeys j hj)
      · simp only [hr, Option.some.injEq] at h
        subst h
        exact ⟨rfl, rfl, hcap, hlen, hkeys⟩
  | ReleaseWorker jobID =>
    simp only [stepOp] at h
    by_cases hmem : jobID ∈ s.admitted
    · simp only [hmem, if_true] at h
      cases hr : ReleaseWorker s.pool jobID with
      | none => simp [hr] at h
      | some p1 =>
        simp only [hr, Option.some.injEq] at h
        subst h
        obtain ⟨hpos, hjobs, hl, hc, hm⟩ := ReleaseWorker_eq _ _ _ hr
        refine ⟨hc, hm, ?_, ?_, ?_⟩
        · show p1.sem.len ≤ p1.sem.cap
          omega
        · show p1.sem.len = (s.admitted.erase jobID).length
          rw [List.length_erase_of_mem hmem, hl, hlen]
        · intro j hj
          simp only [hjobs, mem_mapKeys_mapDelete] at hj
          exact (List.mem_erase_of_ne hj.2).2 (hkeys j hj.1)
    · simp [hmem] at h
  | CancelJob jobID =>
    simp only [stepOp, Option.some.injEq] at h
    subst h
    rw [(CancelJob_eq s.pool jobID).1]
    refine ⟨rfl, rfl, hcap, hlen, ?_⟩
    intro j hj
    simp only [mem_mapKeys_mapDelete] at hj
    exact hkeys j hj.1

theorem runOps_invariant (ops : List PoolOp) (s s1 : PoolState) (h : runOps s ops = some s1)
    (hcap : s.pool.sem.len ≤ s.pool.sem.cap) (hlen : s.pool.sem.len = s.admitted.length)
    (hkeys : ∀ j, j ∈ mapKeys s.pool.jobs → j ∈ s.admitted) :
    s1.pool.sem.cap = s.pool.sem.cap ∧ s1.pool.maxWorkers = s.pool.maxWorkers ∧
      s1.pool.sem.len ≤ s1.pool.sem.cap ∧ s1.pool.sem.len = s1.admitted.length ∧
      ∀ j, j ∈ mapKeys s1.pool.jobs → j ∈ s1.admitted := by
  induction ops generalizing s with
  | nil =>
    simp only [runOps, Option.some.injEq] at h
    subst h
    exact ⟨rfl, rfl, hcap, hlen, hkeys⟩
  | cons op rest ih =>
    simp only [runOps] at h
    cases hs : stepOp s op with
    | none => simp [hs] at h
    | some s2 =>
      simp only [hs] at h
      obtain ⟨h1, h2, h3, h4, h5⟩ := stepOp_invariant s s2 op hs hcap hlen hkeys
      obtain ⟨g1, g2, g3, g4, g5⟩ := ih s2 h h3 h4 h5
      exact ⟨g1.trans h1, g2.trans h2, g3, g4, g5⟩

theorem NewFFmpegWorkerPool_eq (N : Int) (p0 : FFmpegWorkerPool)
    (h : NewFFmpegWorkerPool N = some p0) :
    0 ≤ N ∧ p0.maxWorkers = N ∧ (p0.sem.cap : Int) = N ∧ p0.sem.len = 0 ∧ p0.jobs = [] := by
  unfold NewFFmpegWorkerPool at h
  by_cases hN : N < 0
  · simp [hN] at h
  · simp only [hN, if_false, Option.some.injEq] at h
    subst h
    exact ⟨by omega, rfl, by simp; omega, rfl, rfl⟩

/-- With job ids not reused while in flight, the registry holds exactly the admitted
job ids that have not been cancelled. -/
theorem stepOp_registry (s s1 : PoolState) (op : PoolOp) (h : stepOp s op = some s1)
    (hfresh : ∀ ctx ctxErr pickSend jobID,
      op = PoolOp.AcquireWorker ctx ctxErr pickSend jobID → jobID ∉ s.admitted)
    (hnodup : s.admitted.Nodup) (hsub : ∀ j, j ∈ s.cancelled → j ∈ s.admitted)
    (hiff : ∀ j, j ∈ mapKeys s.pool.jobs ↔ j ∈ s.admitted ∧ j ∉ s.cancelled) :
    s1.admitted.Nodup ∧ (∀ j, j ∈ s1.cancelled → j ∈ s1.admitted) ∧
      ∀ j, j ∈ mapKeys s1.pool.jobs ↔ j ∈ s1.admitted ∧ j ∉ s1.cancelled := by
  cases op with
  | AcquireWorker ctx ctxErr pickSend jobID =>
    have hnew : jobID ∉ s.admitted := hfresh ctx ctxErr pickSend jobID rfl
    simp only [stepOp] at h
    cases hr : AcquireWorker s.pool ctx ctxErr pickSend jobID with
    | none => simp [hr] at h
    | some r =>
      obtain ⟨⟨c, e⟩, p1⟩ := r
      rcases AcquireWorker_cases _ _ _ _ _ _ _ _ hr with ⟨rfl, rfl, _, rfl⟩ | ⟨rfl, _, _, rfl⟩
      · simp only [hr, Option.some.injEq] at h
        subst h
        refine ⟨List.nodup_cons.2 ⟨hnew, hnodup⟩, ?_, ?_⟩
        · intro j hj
          exact List.mem_cons_of_mem _ (hsub j hj)
        · intro j
          simp only [takeSlot, mem_mapKeys_mapSet, List.mem_cons]
          by_cases hj : j = jobID
          · subst hj
            have : j ∉ s.cancelled := fun hc => hnew (hsub j hc)
            simp [this]
          · simp [hj, hiff j]
      · simp only [hr, Option.some.injEq] at h
        subst h
        exact ⟨hnodup, hsub, hiff⟩
  | ReleaseWorker jobID =>
    simp only [stepOp] at h
    by_cases hmem : jobID ∈ s.admitted
    · simp only [hmem, if_true] at h
      cases hr : ReleaseWorker s.pool jobID with
      | none => simp [hr] at h
      | some p1 =>
        simp only [hr, Option.some.injEq] at h
        subst h
        obtain ⟨_, hjobs, _, _, _⟩ := ReleaseWorker_eq _ _ _ hr
        refine ⟨hnodup.erase jobID, ?_, ?_⟩
        · intro j hj
          simp only [List.mem_filter, ne_eq, decide_not, Bool.not_eq_true', decide_eq_false_iff_not]
            at hj
          exact (List.mem_erase_of_ne hj.2).2 (hsub j hj.1)
        · intro j
          simp only [hjobs, mem_mapKeys_mapDelete, List.mem_filter, ne_eq, decide_not,
            Bool.not_eq_true', decide_eq_false_iff_not]
          by_cases hj : j = jobID
          · subst hj
            simp [hnodup.not_mem_erase]
          · simp [hj, hiff j, List.mem_erase_of_ne hj]
    · simp [hmem] at h
  | CancelJob jobID =>
    simp only [stepOp, Option.some.injEq] at h
    subst h
    rw [(CancelJob_eq s.pool jobID).1]
    refine ⟨hnodup, ?_, ?_⟩
    · intro j hj
      by_cases hmem : jobID ∈ s.admitted
      · simp only [hmem, if_true, List.mem_cons] at hj
        rcases hj with rfl | hj
        · exact hmem
        · exact hsub j hj
      · simp only [hmem, if_false] at hj
        exact hsub j hj
    · intro j
      simp only [mem_mapKeys_mapDelete]
      by_cases hj : j = jobID
      · subst hj
        by_cases hmem : j ∈ s.admitted
        · simp [hmem]
        · simp [hmem]
      · by_cases hmem : jobID ∈ s.admitted
        · simp [hj, hiff j, hmem]
        · simp [hj, hiff j, hmem]

theorem runOps_registry (ops : List PoolOp) (s s1 : PoolState) (h : runOps s ops = some s1)
    (hfresh : freshAcquires s ops = true)
    (hnodup : s.admitted.Nodup) (hsub : ∀ j, j ∈ s.cancelled → j ∈ s.admitted)
    (hiff : ∀ j, j ∈ mapKeys s.pool.jobs ↔ j ∈ s.admitted ∧ j ∉ s.cancelled) :
    ∀ j, j ∈ mapKeys s1.pool.jobs ↔ j ∈ s1.admitted ∧ j ∉ s1.cancelled := by
  induction ops generalizing s with
  | nil =>
    simp only [runOps, Option.some.injEq] at h
    subst h
    exact hiff
  | cons op rest ih =>
    simp only [runOps] at h
    cases hs : stepOp s op with
    | none => simp [hs] at h
    | some s2 =>
      simp only [hs] at h
      simp only [freshAcquires, hs, Bool.and_eq_true] at hfresh
      have hf : ∀ ctx ctxErr pickSend jobID,
          op = PoolOp.AcquireWorker ctx ctxErr pickSend jobID → jobID ∉ s.admitted := by
        intro ctx ctxErr pickSend jobID hop
        subst hop
        simpa using hfresh.1
      obtain ⟨h1, h2, h3⟩ := stepOp_registry s s2 op hs hf hnodup hsub hiff
      exact ih s2 h hfresh.2 h1 h2 h3

/-! ## Lemmas on the goroutines -/

theorem filepath_Join_ne_empty (dir name : String) : filepath_Join dir name ≠ "" := by
  intro h
  have h1 := congrArg String.length h
  simp only [filepath_Join, String.length_append] at h1
  have h2 : "/".length = 1 := by decide
  have h3 : "".length = 0 := by decide
  omega

/-- The goroutine of `DownloadMedia` makes two assignments: the error and the status
"failed", or the file name and the status "completed". -/
theorem DownloadMedia_go_writes (job : Job) (url : String) (httpErr createErr copyErr : Option Error)
    (hE : job.Error = none) :
    (DownloadMedia_go job url httpErr createErr copyErr).start = job ∧
      ((∃ e, (httpErr = some e ∨ (httpErr = none ∧ createErr = some e) ∨
              (httpErr = none ∧ createErr = none ∧ copyErr = some e)) ∧
          (DownloadMedia_go job url httpErr createErr copyErr).writes =
            [JobWrite.Error (some e), JobWrite.Status "failed"]) ∨
        (httpErr = none ∧ createErr = none ∧ copyErr = none ∧
          (DownloadMedia_go job url httpErr createErr copyErr).writes =
            [JobWrite.FilePath (downloadFilename job url), JobWrite.Status "completed"])) := by
  cases httpErr with
  | some e => simp [DownloadMedia_go, Run.write, Run.job, applyWrite]
  | none =>
    cases createErr with
    | some e => simp [DownloadMedia_go, Run.write, Run.job, applyWrite]
    | none =>
      cases copyErr with
      | some e => simp [DownloadMedia_go, Run.write, Run.job, applyWrite]
      | none => simp [DownloadMedia_go, Run.write, Run.job, applyWrite, hE]

/-- The goroutine of `ExtractAudio` makes two assignments: the error and the status
"failed", or the output path and the status "completed". -/
theorem ExtractAudio_go_writes (pool : FFmpegWorkerPool) (job : Job) (env : ExtractEnv)
    (r : ExtractRun) (h : ExtractAudio_go pool job env = some r) :
    r.run.start = job ∧
      ((∃ c e p1, AcquireWorker pool extractCtx env.ctxErr env.pickSend job.ID =
            some ((c, some e), p1) ∧
          r.run.writes = [JobWrite.Error (some (acquireError e)), JobWrite.Status "failed"]) ∨
        (∃ c p1 e, AcquireWorker pool extractCtx env.ctxErr env.pickSend job.ID =
            some ((c, none), p1) ∧ env.ffmpegErr = some e ∧
          r.run.writes = [JobWrite.Error (some e), JobWrite.Status "failed"]) ∨
        (∃ c p1, AcquireWorker pool extractCtx env.ctxErr env.pickSend job.ID =
            some ((c, none), p1) ∧ env.ffmpegErr = none ∧
          r.run.writes = [JobWrite.FilePath (filepath_Join "processed" (job.ID ++ ".mp3")),
                          JobWrite.Status "completed"])) := by
  unfold ExtractAudio_go at h
  cases hr : AcquireWorker pool extractCtx env.ctxErr env.pickSend job.ID with
  | none => simp [hr] at h
  | some res =>
    obtain ⟨⟨c, e⟩, p1⟩ := res
    cases e with
    | some e0 =>
      simp only [hr, Option.some.injEq] at h
      subst h
      exact ⟨rfl, Or.inl ⟨c, e0, p1, rfl, rfl⟩⟩
    | none =>
      simp only [hr] at h
      cases hrel : ReleaseWorker (if env.cancelled = true then (CancelJob p1 job.ID).2 else p1)
          job.ID with
      | none => simp [hrel] at h
      | some p3 =>
        simp only [hrel, Option.some.injEq] at h
        subst h
        cases hf : env.ffmpegErr with
        | some e1 => simp [Run.write]
        | none => simp [Run.write]

/-- The value the polling loop of `ProcessYouTube` leaves on is the final value of the
extraction job. -/
theorem ExtractAudio_go_poll (pool : FFmpegWorkerPool) (job : Job) (env : ExtractEnv)
    (r : ExtractRun) (h : ExtractAudio_go pool job env = some r)
    (hS : job.Status = "processing") (hE : job.Error = none) :
    ∃ seen, r.run.history.find? (fun j => decide (j.Status ≠ "processing")) = some seen ∧
      seen = r.run.job ∧
      ((∃ e, seen.Error = some e) ∨
        (seen.Error = none ∧ seen.FilePath = filepath_Join "processed" (job.ID ++ ".mp3"))) := by
  obtain ⟨hstart, hw⟩ := ExtractAudio_go_writes pool job env r h
  rcases hw with ⟨_, e, _, _, hw⟩ | ⟨_, _, e, _, _, hw⟩ | ⟨_, _, _, _, hw⟩
  · simp [Run.history, Run.job, hw, hstart, List.scanl, applyWrite, List.find?, hS]
  · simp [Run.history, Run.job, hw, hstart, List.scanl, applyWrite, List.find?, hS]
  · simp [Run.history, Run.job, hw, hstart, List.scanl, applyWrite, List.find?, hS, hE]

/-- The goroutine of `ProcessYouTube` makes its assignments in one of four orders. -/
theorem ProcessYouTube_go_writes (p : MediaProcessor) (job : Job) (startTime duration : Float64)
    (env : YouTubeEnv) (r : YouTubeRun) (hglob : ∀ f, f ∈ env.globFiles → f ≠ "")
    (h : ProcessYouTube_go p job startTime duration env = some r) :
    r.run.start = job ∧
      ((∃ e, r.run.writes = [JobWrite.Error (some e), JobWrite.Status "failed"]) ∨
        (∃ f, f ≠ "" ∧ r.run.writes = [JobWrite.FilePath f, JobWrite.Status "completed"]) ∨
        (∃ f e, f ≠ "" ∧
          r.run.writes = [JobWrite.FilePath f, JobWrite.Error (some e), JobWrite.Status "failed"]) ∨
        (∃ f g, f ≠ "" ∧ g ≠ "" ∧
          r.run.writes = [JobWrite.FilePath f, JobWrite.FilePath g,
                          JobWrite.Status "completed"])) := by
  unfold ProcessYouTube_go at h
  cases hyt : env.ytErr with
  | some e =>
    simp only [hyt, Option.some.injEq] at h
    subst h
    exact ⟨rfl, Or.inl ⟨e, rfl⟩⟩
  | none =>
    simp only [hyt] at h
    cases hge : env.globErr with
    | some e =>
      simp only [hge, Option.some.injEq] at h
      subst h
      exact ⟨rfl, Or.inl ⟨globError, rfl⟩⟩
    | none =>
      cases hgf : env.globFiles with
      | nil =>
        simp only [hge, hgf, Option.some.injEq] at h
        subst h
        exact ⟨rfl, Or.inl ⟨globError, rfl⟩⟩
      | cons f rest =>
        have hf : f ≠ "" := hglob f (by simp [hgf])
        simp only [hge, hgf] at h
        by_cases hcond : startTime > 0 ∨ duration > 0
        · simp only [hcond, if_true, MediaProcessor.ExtractAudio] at h
          cases hx : ExtractAudio_go p.workerPool
              { ID := env.extractID, Status := "processing", FilePath := "", Error := none }
              env.extract with
          | none => simp [hx] at h
          | some er =>
            obtain ⟨seen, hfind, _, hseen⟩ := ExtractAudio_go_poll _ _ _ _ hx rfl rfl
            simp only [hx, hfind] at h
            rcases hseen with ⟨e, he⟩ | ⟨he, hp⟩
            · simp only [he, ne_eq, not_false_eq_true, if_true, Option.some.injEq,
                reduceCtorEq] at h
              subst h
              exact ⟨rfl, Or.inr (Or.inr (Or.inl ⟨f, e, hf, rfl⟩))⟩
            · simp only [he, ne_eq, not_true_eq_false, if_false, Option.some.injEq] at h
              subst h
              refine ⟨rfl, Or.inr (Or.inr (Or.inr ⟨f, seen.FilePath, hf, ?_, rfl⟩))⟩
              rw [hp]
              exact filepath_Join_ne_empty _ _
        · simp only [hcond, if_false, Option.some.injEq] at h
          subst h
          exact ⟨rfl, Or.inr (Or.inl ⟨f, hf, rfl⟩)⟩

/-- The assignments of a finished goroutine, for each of the three methods: the job
starts non-terminal with `FilePath` and `Error` empty, and the goroutine assigns in one
of four orders, the last two only for `ProcessYouTube`. -/
theorem JobRun_writes (k : JobKind) (r : Run) (h : JobRun k r) :
    r.start.FilePath = "" ∧ r.start.Error = none ∧
      (r.start.Status = "downloading" ∨ r.start.Status = "processing") ∧
      ((∃ e, r.writes = [JobWrite.Error (some e), JobWrite.Status "failed"]) ∨
        (∃ f, f ≠ "" ∧ r.writes = [JobWrite.FilePath f, JobWrite.Status "completed"]) ∨
        (k = JobKind.youtube ∧ ∃ f e, f ≠ "" ∧
          r.writes = [JobWrite.FilePath f, JobWrite.Error (some e), JobWrite.Status "failed"]) ∨
        (k = JobKind.youtube ∧ ∃ f g, f ≠ "" ∧ g ≠ "" ∧
          r.writes = [JobWrite.FilePath f, JobWrite.FilePath g, JobWrite.Status "completed"])) := by
  cases h with
  | download p uuid url httpErr createErr copyErr =>
    obtain ⟨hs, hw⟩ := DownloadMedia_go_writes (p.DownloadMedia uuid url).1.1 url httpErr
      createErr copyErr rfl
    rw [hs]
    refine ⟨rfl, rfl, Or.inl rfl, ?_⟩
    rcases hw with ⟨e, _, hw⟩ | ⟨_, _, _, hw⟩
    · exact Or.inl ⟨e, hw⟩
    · exact Or.inr (Or.inl ⟨_, filepath_Join_ne_empty _ _, hw⟩)
  | extract p uuid inputPath startTime duration pool env r h =>
    obtain ⟨hs, hw⟩ := ExtractAudio_go_writes _ _ _ _ h
    rw [hs]
    refine ⟨rfl, rfl, Or.inr rfl, ?_⟩
    rcases hw with ⟨_, e, _, _, hw⟩ | ⟨_, _, e, _, _, hw⟩ | ⟨_, _, _, _, hw⟩
    · exact Or.inl ⟨_, hw⟩
    · exact Or.inl ⟨e, hw⟩
    · exact Or.inr (Or.inl ⟨_, filepath_Join_ne_empty _ _, hw⟩)
  | youtube p uuid url startTime duration q env r hglob h =>
    obtain ⟨hs, hw⟩ := ProcessYouTube_go_writes _ _ _ _ _ _ hglob h
    rw [hs]
    refine ⟨rfl, rfl, Or.inr rfl, ?_⟩
    rcases hw with hw | hw | hw | hw
    · exact Or.inl hw
    · exact Or.inr (Or.inl hw)
    · exact Or.inr (Or.inr (Or.inl ⟨rfl, hw⟩))
    · exact Or.inr (Or.inr (Or.inr ⟨rfl, hw⟩))

/-! ## Lemmas on the processor -/

/-- Every key of the job map was there at the start or was returned by a call. -/
theorem runProc_keys (ops : List ProcOp) (p : MediaProcessor) (id : String)
    (h : id ∈ mapKeys (runProc p ops).Jobs) : id ∈ mapKeys p.Jobs ∨ id ∈ returnedIDs p ops := by
  induction ops generalizing p with
  | nil => exact Or.inl h
  | cons op rest ih =>
    have h1 : id ∈ mapKeys (runProc (stepProc p op) rest).Jobs := h
    rcases ih (stepProc p op) h1 with h2 | h2
    · cases op with
      | DownloadMedia uuid url =>
        simp only [stepProc, MediaProcessor.DownloadMedia, mem_mapKeys_mapSet] at h2
        rcases h2 with rfl | ⟨h2, _⟩
        · exact Or.inr (by simp [returnedIDs, returnedID, MediaProcessor.DownloadMedia])
        · exact Or.inl h2
      | ExtractAudio uuid inputPath st d =>
        simp only [stepProc, MediaProcessor.ExtractAudio, mem_mapKeys_mapSet] at h2
        rcases h2 with rfl | ⟨h2, _⟩
        · exact Or.inr (by simp [returnedIDs, returnedID, MediaProcessor.ExtractAudio])
        · exact Or.inl h2
      | ProcessYouTube uuid url st d =>
        simp only [stepProc, MediaProcessor.ProcessYouTube, mem_mapKeys_mapSet] at h2
        rcases h2 with rfl | ⟨h2, _⟩
        · exact Or.inr (by simp [returnedIDs, returnedID, MediaProcessor.ProcessYouTube])
        · exact Or.inl h2
      | goWrite id1 w =>
        simp only [stepProc] at h2
        cases hg : mapGet p.Jobs id1 with
        | none =>
          simp only [hg] at h2
          exact Or.inl h2
        | some j =>
          simp only [hg, mem_mapKeys_mapSet] at h2
          rcases h2 with rfl | ⟨h2, _⟩
          · exact Or.inl ((mapGet_isSome_iff_mem_keys _ _).1 (by simp [hg]))
          · exact Or.inl h2
    · exact Or.inr (by simp [returnedIDs, h2])

/-! ## The claims -/

/-- C1: for every capacity N and every sequence of AcquireWorker, ReleaseWorker and
CancelJob calls on a pool created by NewFFmpegWorkerPool(N), ActiveWorkers() is at most
N, and so is the number of units that are past admission. -/
theorem C1_active_workers_le_capacity (N : Int) (p0 : FFmpegWorkerPool) (ops : List PoolOp)
    (s : PoolState) (hnew : NewFFmpegWorkerPool N = some p0)
    (hrun : runOps (PoolState.init p0) ops = some s) :
    ActiveWorkers s.pool ≤ N ∧ (s.admitted.length : Int) ≤ N := by
  obtain ⟨_, _, hcapN, hlen0, hjobs⟩ := NewFFmpegWorkerPool_eq N p0 hnew
  obtain ⟨g1, _, g3, g4, _⟩ :=
    runOps_invariant ops (PoolState.init p0) s hrun (by simp [PoolState.init, hlen0])
      (by simp [PoolState.init, hlen0]) (by simp [PoolState.init, hjobs, mapKeys])
  have hc : (s.pool.sem.cap : Int) = N := by rw [g1]; exact hcapN
  have hl : (s.pool.sem.len : Int) ≤ N := by rw [← hc]; exact_mod_cast g3
  refine ⟨hl, ?_⟩
  rw [← g4]
  exact hl

/-- C1 on a pool of one worker: a first unit is admitted, a second is turned away when
its context is done; one worker is active. -/
theorem C1_active_workers_le_capacity_witness :
    ActiveWorkers
        ({ maxWorkers := 1, sem := { cap := 1, len := 1 }
           jobs := [("a", ⟨Context.WithCancel extractCtx⟩)] } : FFmpegWorkerPool) ≤ 1 ∧
      ((["a"].length : Nat) : Int) ≤ 1 :=
  C1_active_workers_le_capacity 1 { maxWorkers := 1, sem := { cap := 1, len := 0 }, jobs := [] }
    [PoolOp.AcquireWorker extractCtx none true "a",
     PoolOp.AcquireWorker extractCtx (some ⟨"context deadline exceeded"⟩) true "b"]
    { pool := { maxWorkers := 1, sem := { cap := 1, len := 1 }
                jobs := [("a", ⟨Context.WithCancel extractCtx⟩)] }
      admitted := ["a"], cancelled := [] }
    (by decide) (by decide)


/-- C4: AcquireWorker blocks only while no slot is free and the parent context is live;
when it returns it has one of two outcomes. Either it succeeds, which needs a free slot:
the context is non-nil, the error nil, the slot count is one higher, a cancel handle is
registered under jobID and every other registry entry is unchanged. Or it returns the
parent context's error with a nil context, and the pool is unchanged. -/
theorem C4_acquire_two_outcomes (p : FFmpegWorkerPool) (ctx : Context) (ctxErr : Option Error)
    (pickSend : Bool) (jobID : String) :
    (AcquireWorker p ctx ctxErr pickSend jobID = none ↔
        ¬ p.sem.len < p.sem.cap ∧ ctxErr = none) ∧
      ∀ c e p1, AcquireWorker p ctx ctxErr pickSend jobID = some ((c, e), p1) →
        (c ≠ none ∧ e = none ∧ p.sem.len < p.sem.cap ∧
            ActiveWorkers p1 = ActiveWorkers p + 1 ∧ p1.sem.cap = p.sem.cap ∧
            p1.maxWorkers = p.maxWorkers ∧
            mapGet p1.jobs jobID = some ⟨Context.WithCancel ctx⟩ ∧
            ∀ k, k ≠ jobID → mapGet p1.jobs k = mapGet p.jobs k) ∨
          (c = none ∧ e ≠ none ∧ e = ctxErr ∧ p1 = p) := by
  constructor
  · unfold AcquireWorker
    by_cases hs : p.sem.len < p.sem.cap
    · cases ctxErr with
      | none => simp [hs]
      | some e0 => cases pickSend <;> simp [hs]
    · cases ctxErr with
      | none => simp [hs]
      | some e0 => simp [hs]
  · intro c e p1 h
    rcases AcquireWorker_cases _ _ _ _ _ _ _ _ h with ⟨rfl, rfl, hs, rfl⟩ | ⟨rfl, h1, h2, rfl⟩
    · refine Or.inl ⟨by simp, rfl, hs, ?_, rfl, rfl, ?_, ?_⟩
      · simp [ActiveWorkers, takeSlot]
      · simp [takeSlot, mapGet_mapSet_self]
      · intro k hk
        simp [takeSlot, mapGet_mapSet_ne _ _ _ _ hk]
    · exact Or.inr ⟨rfl, h1, h2, rfl⟩

/-- C4 on a pool of two workers with one slot taken by job "a": job "b" is admitted, and
the entry of "a" is as before. -/
theorem C4_acquire_two_outcomes_witness :
    (some (Context.WithCancel extractCtx) ≠ none ∧ (none : Option Error) = none ∧ 1 < 2 ∧
        ActiveWorkers
            { maxWorkers := 2, sem := { cap := 2, len := 2 }
              jobs := [("b", ⟨Context.WithCancel extractCtx⟩),
                       ("a", ⟨Context.WithCancel extractCtx⟩)] } =
          ActiveWorkers
            { maxWorkers := 2, sem := { cap := 2, len := 1 }
              jobs := [("a", ⟨Context.WithCancel extractCtx⟩)] } + 1 ∧
        (2 : Nat) = 2 ∧ (2 : Int) = 2 ∧
        mapGet [("b", (⟨Context.WithCancel extractCtx⟩ : CancelFunc)),
                ("a", ⟨Context.WithCancel extractCtx⟩)] "b" =
          some ⟨Context.WithCancel extractCtx⟩ ∧
        ∀ k, k ≠ "b" →
          mapGet [("b", (⟨Context.WithCancel extractCtx⟩ : CancelFunc)),
                  ("a", ⟨Context.WithCancel extractCtx⟩)] k =
            mapGet [("a", (⟨Context.WithCancel extractCtx⟩ : CancelFunc))] k) ∨
      ((some (Context.WithCancel extractCtx) : Option Context) = none ∧
        (none : Option Error) ≠ none ∧ (none : Option Error) = none ∧
        ({ maxWorkers := 2, sem := { cap := 2, len := 2 }
           jobs := [("b", ⟨Context.WithCancel extractCtx⟩),
                    ("a", ⟨Context.WithCancel extractCtx⟩)] } : FFmpegWorkerPool) =
          { maxWorkers := 2, sem := { cap := 2, len := 1 }
            jobs := [("a", ⟨Context.WithCancel extractCtx⟩)] }) :=
  (C4_acquire_two_outcomes
      { maxWorkers := 2, sem := { cap := 2, len := 1 }
        jobs := [("a", ⟨Context.WithCancel extractCtx⟩)] }
      extractCtx none true "b").2
    (some (Context.WithCancel extractCtx)) none
    { maxWorkers := 2, sem := { cap := 2, len := 2 }
      jobs := [("b", ⟨Context.WithCancel extractCtx⟩), ("a", ⟨Context.WithCancel extractCtx⟩)] }
    (by decide)


/-- C2 as stated fails: on a pool of one worker, after job "a" is admitted and CancelJob
is called on it, the job still holds its slot (one worker is active, "a" is admitted and
has not released) and the registry has no entry for it. -/
theorem C2_entry_iff_slot_counterexample :
    NewFFmpegWorkerPool 1 = some { maxWorkers := 1, sem := { cap := 1, len := 0 }, jobs := [] } ∧
      runOps (PoolState.init { maxWorkers := 1, sem := { cap := 1, len := 0 }, jobs := [] })
          [PoolOp.AcquireWorker extractCtx none true "a", PoolOp.CancelJob "a"] =
        some { pool := { maxWorkers := 1, sem := { cap := 1, len := 1 }, jobs := [] }
               admitted := ["a"], cancelled := ["a"] } ∧
      ¬ ((mapGet ([] : List (String × CancelFunc)) "a").isSome = true ↔ "a" ∈ ["a"]) := by
  decide

/-- C2, amended: in every state reachable through AcquireWorker, ReleaseWorker and
CancelJob, a job id with a registry entry holds an admitted slot; when job ids are not
reused while in flight, the registry holds an entry for a job id if and only if the job
holds an admitted slot and CancelJob has not been called on it since its admission.
CancelJob and ReleaseWorker each leave no entry for the job id and change no other
entry, CancelJob returns whether there was one, and on a job id without an entry
CancelJob returns false and neither call changes the registry: an entry is removed
once, by whichever of the two comes first. -/
theorem C2_registry_entries (N : Int) (p0 : FFmpegWorkerPool) (ops : List PoolOp)
    (s : PoolState) (hnew : NewFFmpegWorkerPool N = some p0)
    (hrun : runOps (PoolState.init p0) ops = some s) :
    (∀ j, (mapGet s.pool.jobs j).isSome = true → j ∈ s.admitted) ∧
      (freshAcquires (PoolState.init p0) ops = true →
        ∀ j, (mapGet s.pool.jobs j).isSome = true ↔ j ∈ s.admitted ∧ j ∉ s.cancelled) ∧
      (∀ j, mapGet (CancelJob s.pool j).2.jobs j = none ∧
        (CancelJob s.pool j).1 = (mapGet s.pool.jobs j).isSome ∧
        ∀ k, k ≠ j → mapGet (CancelJob s.pool j).2.jobs k = mapGet s.pool.jobs k) ∧
      (∀ j p1, ReleaseWorker s.pool j = some p1 →
        mapGet p1.jobs j = none ∧ ∀ k, k ≠ j → mapGet p1.jobs k = mapGet s.pool.jobs k) ∧
      ∀ j, mapGet s.pool.jobs j = none →
        CancelJob s.pool j = (false, s.pool) ∧
          ∀ p1, ReleaseWorker s.pool j = some p1 → p1.jobs = s.pool.jobs := by
  obtain ⟨_, _, _, hlen0, hjobs⟩ := NewFFmpegWorkerPool_eq N p0 hnew
  refine ⟨?_, ?_, ?_, ?_, ?_⟩
  · intro j hj
    obtain ⟨_, _, _, _, g5⟩ :=
      runOps_invariant ops (PoolState.init p0) s hrun (by simp [PoolState.init, hlen0])
        (by simp [PoolState.init, hlen0]) (by simp [PoolState.init, hjobs, mapKeys])
    exact g5 j ((mapGet_isSome_iff_mem_keys _ _).1 hj)
  · intro hfresh j
    rw [mapGet_isSome_iff_mem_keys]
    exact runOps_registry ops (PoolState.init p0) s hrun hfresh (by simp [PoolState.init])
      (by simp [PoolState.init]) (by simp [PoolState.init, hjobs, mapKeys]) j
  · intro j
    obtain ⟨h1, h2⟩ := CancelJob_eq s.pool j
    rw [h1]
    exact ⟨mapGet_mapDelete_self _ _, h2, fun k hk => mapGet_mapDelete_ne _ _ _ hk⟩
  · intro j p1 hr
    obtain ⟨_, h1, _, _, _⟩ := ReleaseWorker_eq _ _ _ hr
    rw [h1]
    exact ⟨mapGet_mapDelete_self _ _, fun k hk => mapGet_mapDelete_ne _ _ _ hk⟩
  · intro j hj
    refine ⟨by simp [CancelJob, hj], ?_⟩
    intro p1 hr
    obtain ⟨_, h1, _, _, _⟩ := ReleaseWorker_eq _ _ _ hr
    rw [h1, mapDelete_eq_self _ _ hj]

/-- C2, amended, on a pool of two workers after jobs "a" and "b" are admitted and
CancelJob is called on "a": "b" has an entry and holds a slot uncancelled, and a second
CancelJob on "a" returns false and changes nothing. -/
theorem C2_registry_entries_witness :
    ((mapGet [("b", (⟨Context.WithCancel extractCtx⟩ : CancelFunc))] "b").isSome = true ↔
        "b" ∈ ["b", "a"] ∧ "b" ∉ ["a"]) ∧
      CancelJob
          { maxWorkers := 2, sem := { cap := 2, len := 2 }
            jobs := [("b", ⟨Context.WithCancel extractCtx⟩)] } "a" =
        (false, { maxWorkers := 2, sem := { cap := 2, len := 2 }
                  jobs := [("b", ⟨Context.WithCancel extractCtx⟩)] }) :=
  have h := C2_registry_entries 2 { maxWorkers := 2, sem := { cap := 2, len := 0 }, jobs := [] }
    [PoolOp.AcquireWorker extractCtx none true "a", PoolOp.AcquireWorker extractCtx none true "b",
     PoolOp.CancelJob "a"]
    { pool := { maxWorkers := 2, sem := { cap := 2, len := 2 }
                jobs := [("b", ⟨Context.WithCancel extractCtx⟩)] }
      admitted := ["b", "a"], cancelled := ["a"] }
    (by decide) (by decide)
  ⟨h.2.1 (by decide) "b", (h.2.2.2.2 "a" (by decide)).1⟩

/-- C5: the ExtractAudio goroutine ends unless AcquireWorker blocks, and when it ends,
whatever the outcome of admission and of ffmpeg and whether or not CancelJob was called
on the job meanwhile: ReleaseWorker was called once, on the job's id, if admission
succeeded and not at all if it failed; the slot count is what it was before the
goroutine started; every registry entry of another job is as before; and the registry
holds no entry for the job (after a failed admission, none if there was none before, as
for a fresh uuid). -/
theorem C5_release_exactly_once (pool : FFmpegWorkerPool) (job : Job) (env : ExtractEnv) :
    (ExtractAudio_go pool job env = none ↔
        AcquireWorker pool extractCtx env.ctxErr env.pickSend job.ID = none) ∧
      ∀ r, ExtractAudio_go pool job env = some r →
        ∃ c e p1, AcquireWorker pool extractCtx env.ctxErr env.pickSend job.ID =
            some ((c, e), p1) ∧
          releaseCalls r.calls = (if e = none then [job.ID] else []) ∧
          ActiveWorkers r.pool = ActiveWorkers pool ∧
          r.pool.sem = pool.sem ∧
          (∀ k, k ≠ job.ID → mapGet r.pool.jobs k = mapGet pool.jobs k) ∧
          (e = none → mapGet r.pool.jobs job.ID = none) ∧
          (mapGet pool.jobs job.ID = none → mapGet r.pool.jobs job.ID = none) := by
  cases hr : AcquireWorker pool extractCtx env.ctxErr env.pickSend job.ID with
  | none => simp [ExtractAudio_go, hr]
  | some res =>
    obtain ⟨⟨c, e⟩, p1⟩ := res
    rcases AcquireWorker_cases _ _ _ _ _ _ _ _ hr with ⟨rfl, rfl, hs, rfl⟩ | ⟨rfl, h1, h2, rfl⟩
    · -- admitted
      have hp2 : ∀ b : Bool,
          ReleaseWorker (if b = true then (CancelJob (takeSlot pool extractCtx job.ID) job.ID).2
            else takeSlot pool extractCtx job.ID) job.ID =
            some { pool with jobs := mapDelete pool.jobs job.ID } := by
        intro b
        cases b with
        | true =>
          simp only [if_true, (CancelJob_eq _ _).1]
          rw [ReleaseWorker_some _ _ (by simp [takeSlot])]
          simp [takeSlot, mapDelete_mapSet, mapDelete_mapDelete]
        | false =>
          rw [if_neg (by simp), ReleaseWorker_some _ _ (by simp [takeSlot])]
          simp [takeSlot, mapDelete_mapSet]
      have hgo : ∃ body, ExtractAudio_go pool job env =
          some { run := body, pool := { pool with jobs := mapDelete pool.jobs job.ID }
                 calls := [PoolOp.AcquireWorker extractCtx env.ctxErr env.pickSend job.ID,
                           PoolOp.ReleaseWorker job.ID] } := by
        simp only [ExtractAudio_go, hr, hp2 env.cancelled]
        exact ⟨_, rfl⟩
      obtain ⟨body, hbody⟩ := hgo
      refine ⟨by simp [hbody], ?_⟩
      intro r hrr
      rw [hbody] at hrr
      simp only [Option.some.injEq] at hrr
      subst hrr
      refine ⟨_, _, _, rfl, by simp [releaseCalls], rfl, rfl, ?_, ?_, ?_⟩
      · intro k hk
        exact mapGet_mapDelete_ne _ _ _ hk
      · intro _
        exact mapGet_mapDelete_self _ _
      · intro _
        exact mapGet_mapDelete_self _ _
    · -- turned away
      obtain ⟨e0, rfl⟩ : ∃ e0, e = some e0 := by
        cases e with
        | none => exact absurd rfl h1
        | some e0 => exact ⟨e0, rfl⟩
      have hgo : ExtractAudio_go p1 job env =
          some { run := (({ start := job, writes := [] } : Run).write
                          (JobWrite.Error (some (acquireError e0)))).write
                          (JobWrite.Status "failed")
                 pool := p1
                 calls := [PoolOp.AcquireWorker extractCtx env.ctxErr env.pickSend job.ID] } := by
        simp only [ExtractAudio_go, hr]
      refine ⟨by simp [hgo], ?_⟩
      intro r hrr
      rw [hgo] at hrr
      simp only [Option.some.injEq] at hrr
      subst hrr
      exact ⟨_, _, _, rfl, by simp [releaseCalls], rfl, rfl, fun _ _ => rfl,
        fun h => by simp at h, fun h => h⟩


/-- C3 as stated fails, in both halves. A download that succeeds has its file name
assigned while its status is still "downloading"; and a ProcessYouTube job whose
extraction fails ends "failed" with both the downloaded file as FilePath and the error
of the extraction. -/
theorem C3_exactly_one_counterexample :
    ({ ID := "u1", Status := "downloading", FilePath := "uploads/u1.mp4", Error := none } : Job) ∈
        (DownloadMedia_go
          (MediaProcessor.DownloadMedia
            { Jobs := [], workerPool := { maxWorkers := 5, sem := { cap := 5, len := 0 }, jobs := [] } }
            "u1" "http://example.com/video.mp4").1.1
          "http://example.com/video.mp4" none none none).history ∧
      Job.exactlyOneWhenTerminal
          { ID := "u1", Status := "downloading", FilePath := "uploads/u1.mp4", Error := none } =
        false ∧
      (ProcessYouTube_go
          { Jobs := [], workerPool := { maxWorkers := 5, sem := { cap := 5, len := 0 }, jobs := [] } }
          (MediaProcessor.ProcessYouTube
            { Jobs := [], workerPool := { maxWorkers := 5, sem := { cap := 5, len := 0 }, jobs := [] } }
            "y1" "https://youtu.be/v" 10 0).1.1
          10 0
          { ytErr := none, globFiles := ["uploads/y1.mp3"], globErr := none, extractID := "x1"
            extract := { ctxErr := none, pickSend := true, cancelled := false
                         ffmpegErr := some ⟨"exit status 1"⟩ } }).map (fun r => r.run.job) =
        some { ID := "y1", Status := "failed", FilePath := "uploads/y1.mp3"
               Error := some ⟨"exit status 1"⟩ } ∧
      Job.exactlyOneWhenTerminal
          { ID := "y1", Status := "failed", FilePath := "uploads/y1.mp3"
            Error := some ⟨"exit status 1"⟩ } =
        false := by
  decide

/-- C3, amended: for every job created by DownloadMedia, ExtractAudio or ProcessYouTube
and every outcome of the external calls, the job is created non-terminal with FilePath
empty and Error nil, and at every point of its life: when Status is "completed",
FilePath is non-empty and Error is nil; when Status is "failed", Error is non-nil; and
for a job of DownloadMedia or ExtractAudio, once Status is terminal exactly one of
FilePath non-empty, Error non-nil holds. -/
theorem C3_terminal_fields (k : JobKind) (r : Run) (h : JobRun k r) :
    (r.start.terminal = false ∧ r.start.FilePath = "" ∧ r.start.Error = none) ∧
      ∀ j, j ∈ r.history →
        (j.Status = "completed" → j.FilePath ≠ "" ∧ j.Error = none) ∧
        (j.Status = "failed" → j.Error ≠ none) ∧
        (k ≠ JobKind.youtube → j.terminal = true → j.exactlyOneWhenTerminal = true) := by
  obtain ⟨hF, hE, hS, hw⟩ := JobRun_writes k r h
  have hS1 : r.start.Status ≠ "completed" ∧ r.start.Status ≠ "failed" := by
    rcases hS with hS | hS <;> simp [hS]
  refine ⟨⟨by simp [Job.terminal, hS1.1, hS1.2], hF, hE⟩, ?_⟩
  intro j hj
  rcases hw with ⟨e, hw⟩ | ⟨f, hf, hw⟩ | ⟨hk, f, e, hf, hw⟩ | ⟨hk, f, g, hf, hg, hw⟩
  · simp only [Run.history, hw, List.scanl, applyWrite, List.mem_cons, List.mem_singleton,
      List.not_mem_nil, or_false] at hj
    rcases hj with rfl | rfl | rfl
    · simp [Job.terminal, hS1.1, hS1.2]
    · simp [Job.terminal, hS1.1, hS1.2]
    · simp [Job.terminal, Job.exactlyOneWhenTerminal, hF]
  · simp only [Run.history, hw, List.scanl, applyWrite, List.mem_cons, List.mem_singleton,
      List.not_mem_nil, or_false] at hj
    rcases hj with rfl | rfl | rfl
    · simp [Job.terminal, hS1.1, hS1.2]
    · simp [Job.terminal, hS1.1, hS1.2]
    · simp [Job.terminal, Job.exactlyOneWhenTerminal, hE, hf]
  · simp only [Run.history, hw, List.scanl, applyWrite, List.mem_cons, List.mem_singleton,
      List.not_mem_nil, or_false] at hj
    rcases hj with rfl | rfl | rfl | rfl
    · simp [Job.terminal, hS1.1, hS1.2]
    · simp [Job.terminal, hS1.1, hS1.2]
    · simp [Job.terminal, hS1.1, hS1.2]
    · simp [hk]
  · simp only [Run.history, hw, List.scanl, applyWrite, List.mem_cons, List.mem_singleton,
      List.not_mem_nil, or_false] at hj
    rcases hj with rfl | rfl | rfl | rfl
    · simp [Job.terminal, hS1.1, hS1.2]
    · simp [Job.terminal, hS1.1, hS1.2]
    · simp [Job.terminal, hS1.1, hS1.2]
    · simp [hk, hE, hg]

/-- C3, amended, on the job of an ExtractAudio that is admitted to a pool of five and
whose ffmpeg fails: the job starts non-terminal, and ends "failed" with the error set. -/
theorem C3_terminal_fields_witness :
    Job.terminal { ID := "x1", Status := "processing", FilePath := "", Error := none } = false ∧
      (some ⟨"exit status 1"⟩ : Option Error) ≠ none :=
  have h := C3_terminal_fields JobKind.extract
    { start := { ID := "x1", Status := "processing", FilePath := "", Error := none }
      writes := [JobWrite.Error (some ⟨"exit status 1"⟩), JobWrite.Status "failed"] }
    (JobRun.extract
      { Jobs := [], workerPool := { maxWorkers := 5, sem := { cap := 5, len := 0 }, jobs := [] } }
      "x1" "uploads/u1.mp4" 0 60
      { maxWorkers := 5, sem := { cap := 5, len := 0 }, jobs := [] }
      { ctxErr := none, pickSend := true, cancelled := false, ffmpegErr := some ⟨"exit status 1"⟩ }
      { run := { start := { ID := "x1", Status := "processing", FilePath := "", Error := none }
                 writes := [JobWrite.Error (some ⟨"exit status 1"⟩), JobWrite.Status "failed"] }
        pool := { maxWorkers := 5, sem := { cap := 5, len := 0 }, jobs := [] }
        calls := [PoolOp.AcquireWorker extractCtx none true "x1", PoolOp.ReleaseWorker "x1"] }
      (by decide))
  ⟨h.1.1,
    (h.2 { ID := "x1", Status := "failed", FilePath := "", Error := some ⟨"exit status 1"⟩ }
      (by decide)).2.1 rfl⟩

/-- C5 on a pool of one worker: the goroutine of job "x1" is admitted, CancelJob is
called on "x1" while ffmpeg runs, ffmpeg fails; ReleaseWorker ran once and the pool is
as it was. -/
theorem C5_release_exactly_once_witness :
    ∃ c e p1,
      AcquireWorker { maxWorkers := 1, sem := { cap := 1, len := 0 }, jobs := [] } extractCtx none
          true "x1" = some ((c, e), p1) ∧
        releaseCalls [PoolOp.AcquireWorker extractCtx none true "x1", PoolOp.ReleaseWorker "x1"] =
          (if e = none then ["x1"] else []) ∧
        ActiveWorkers { maxWorkers := 1, sem := { cap := 1, len := 0 }, jobs := [] } =
          ActiveWorkers { maxWorkers := 1, sem := { cap := 1, len := 0 }, jobs := [] } ∧
        ({ cap := 1, len := 0 } : Chan) = { cap := 1, len := 0 } ∧
        (∀ k, k ≠ "x1" →
          mapGet ([] : List (String × CancelFunc)) k = mapGet ([] : List (String × CancelFunc)) k) ∧
        (e = none → mapGet ([] : List (String × CancelFunc)) "x1" = none) ∧
        (mapGet ([] : List (String × CancelFunc)) "x1" = none →
          mapGet ([] : List (String × CancelFunc)) "x1" = none) :=
  (C5_release_exactly_once { maxWorkers := 1, sem := { cap := 1, len := 0 }, jobs := [] }
      { ID := "x1", Status := "processing", FilePath := "", Error := none }
      { ctxErr := none, pickSend := true, cancelled := true, ffmpegErr := some ⟨"signal: killed"⟩ }).2
    { run := { start := { ID := "x1", Status := "processing", FilePath := "", Error := none }
               writes := [JobWrite.Error (some ⟨"signal: killed"⟩), JobWrite.Status "failed"] }
      pool := { maxWorkers := 1, sem := { cap := 1, len := 0 }, jobs := [] }
      calls := [PoolOp.AcquireWorker extractCtx none true "x1", PoolOp.ReleaseWorker "x1"] }
    (by decide)

/-- C6: for every job created by DownloadMedia, ExtractAudio or ProcessYouTube and every
outcome of the external calls, when the goroutine has finished the job is "completed"
with a non-empty FilePath or "failed" with a non-nil Error. In particular an error of
the download (http.Get, os.Create, io.Copy), of worker admission, of ffmpeg and of
yt-dlp each end in "failed" with that error recorded (the admission error wrapped by
fmt.Errorf). -/
theorem C6_finished_job_consistent :
    (∀ k r, JobRun k r →
        (r.job.Status = "completed" ∧ r.job.FilePath ≠ "") ∨
          (r.job.Status = "failed" ∧ r.job.Error ≠ none)) ∧
      (∀ p uuid url httpErr createErr copyErr e,
        (httpErr = some e ∨ (httpErr = none ∧ createErr = some e) ∨
          (httpErr = none ∧ createErr = none ∧ copyErr = some e)) →
        (DownloadMedia_go (MediaProcessor.DownloadMedia p uuid url).1.1 url httpErr createErr
            copyErr).job.Status = "failed" ∧
          (DownloadMedia_go (MediaProcessor.DownloadMedia p uuid url).1.1 url httpErr createErr
            copyErr).job.Error = some e) ∧
      (∀ pool job env r c e p1, ExtractAudio_go pool job env = some r →
        AcquireWorker pool extractCtx env.ctxErr env.pickSend job.ID = some ((c, some e), p1) →
        r.run.job.Status = "failed" ∧ r.run.job.Error = some (acquireError e)) ∧
      (∀ pool job env r c e p1, ExtractAudio_go pool job env = some r →
        AcquireWorker pool extractCtx env.ctxErr env.pickSend job.ID = some ((c, none), p1) →
        env.ffmpegErr = some e →
        r.run.job.Status = "failed" ∧ r.run.job.Error = some e) ∧
      (∀ q job startTime duration env e, env.ytErr = some e →
        ∃ r, ProcessYouTube_go q job startTime duration env = some r ∧
          r.run.job.Status = "failed" ∧ r.run.job.Error = some e) := by
  refine ⟨?_, ?_, ?_, ?_, ?_⟩
  · intro k r h
    obtain ⟨_, _, _, hw⟩ := JobRun_writes k r h
    rcases hw with ⟨e, hw⟩ | ⟨f, hf, hw⟩ | ⟨_, f, e, _, hw⟩ | ⟨_, f, g, _, hg, hw⟩
    · exact Or.inr (by simp [Run.job, hw, applyWrite])
    · exact Or.inl (by simp [Run.job, hw, applyWrite, hf])
    · exact Or.inr (by simp [Run.job, hw, applyWrite])
    · exact Or.inl (by simp [Run.job, hw, applyWrite, hg])
  · intro p uuid url httpErr createErr copyErr e he
    obtain ⟨hs, hw⟩ := DownloadMedia_go_writes (p.DownloadMedia uuid url).1.1 url httpErr
      createErr copyErr rfl
    rcases hw with ⟨e1, he1, hw⟩ | ⟨h1, h2, h3, _⟩
    · have hee : e1 = e := by
        rcases he with h | ⟨h, h0⟩ | ⟨h, h0, h00⟩ <;>
          rcases he1 with g | ⟨g, g0⟩ | ⟨g, g0, g00⟩ <;> simp_all
      subst hee
      simp [Run.job, hw, applyWrite]
    · rcases he with h | ⟨_, h⟩ | ⟨_, _, h⟩ <;> simp_all
  · intro pool job env r c e p1 h ha
    obtain ⟨_, hw⟩ := ExtractAudio_go_writes pool job env r h
    rcases hw with ⟨_, e1, _, ha1, hw⟩ | ⟨_, _, _, ha1, _, _⟩ | ⟨_, _, ha1, _, _⟩
    · rw [ha] at ha1
      simp only [Option.some.injEq, Prod.mk.injEq] at ha1
      obtain ⟨⟨_, rfl⟩, _⟩ := ha1
      simp [Run.job, hw, applyWrite]
    · rw [ha] at ha1
      simp at ha1
    · rw [ha] at ha1
      simp at ha1
  · intro pool job env r c e p1 h ha hf
    obtain ⟨_, hw⟩ := ExtractAudio_go_writes pool job env r h
    rcases hw with ⟨_, e1, _, ha1, _⟩ | ⟨_, _, e1, _, hf1, hw⟩ | ⟨_, _, _, hf1, _⟩
    · rw [ha] at ha1
      simp at ha1
    · rw [hf] at hf1
      simp only [Option.some.injEq] at hf1
      subst hf1
      simp [Run.job, hw, applyWrite]
    · rw [hf] at hf1
      simp at hf1
  · intro q job startTime duration env e he
    refine ⟨_, by simp only [ProcessYouTube_go, he]; rfl, ?_⟩
    simp [Run.job, Run.write, applyWrite]

/-- C6 on a download whose http.Get fails: the job ends "failed" with the error. -/
theorem C6_finished_job_consistent_witness :
    (DownloadMedia_go
        (MediaProcessor.DownloadMedia
          { Jobs := [], workerPool := { maxWorkers := 5, sem := { cap := 5, len := 0 }, jobs := [] } }
          "u1" "http://example.com/video.mp4").1.1
        "http://example.com/video.mp4" (some ⟨"no such host"⟩) none none).job.Status = "failed" ∧
      (DownloadMedia_go
        (MediaProcessor.DownloadMedia
          { Jobs := [], workerPool := { maxWorkers := 5, sem := { cap := 5, len := 0 }, jobs := [] } }
          "u1" "http://example.com/video.mp4").1.1
        "http://example.com/video.mp4" (some ⟨"no such host"⟩) none none).job.Error =
        some ⟨"no such host"⟩ :=
  C6_finished_job_consistent.2.1
    { Jobs := [], workerPool := { maxWorkers := 5, sem := { cap := 5, len := 0 }, jobs := [] } }
    "u1" "http://example.com/video.mp4" (some ⟨"no such host"⟩) none none ⟨"no such host"⟩
    (Or.inl rfl)

/-- C7: for every job and every outcome of the external calls, the job is created
non-terminal and its goroutine assigns Status once, as its last assignment, to
"completed" or "failed": every earlier value of the job has the status it was created
with, no assignment to Status, FilePath or Error follows the terminal one, and the
final value is terminal. -/
theorem C7_status_forward_only (k : JobKind) (r : Run) (h : JobRun k r) :
    r.start.terminal = false ∧
      (∃ ws s, r.writes = ws ++ [JobWrite.Status s] ∧ (s = "completed" ∨ s = "failed") ∧
        ∀ w, w ∈ ws → ∀ t, w ≠ JobWrite.Status t) ∧
      (∀ j, j ∈ r.history.dropLast → j.Status = r.start.Status) ∧
      r.history.getLast? = some r.job ∧ r.job.terminal = true := by
  obtain ⟨_, _, hS, hw⟩ := JobRun_writes k r h
  have hS1 : r.start.Status ≠ "completed" ∧ r.start.Status ≠ "failed" := by
    rcases hS with hS | hS <;> simp [hS]
  refine ⟨by simp [Job.terminal, hS1.1, hS1.2], ?_⟩
  rcases hw with ⟨e, hw⟩ | ⟨f, hf, hw⟩ | ⟨_, f, e, _, hw⟩ | ⟨_, f, g, _, hg, hw⟩
  · refine ⟨⟨[JobWrite.Error (some e)], "failed", by simp [hw], Or.inr rfl, by simp⟩, ?_, ?_, ?_⟩
    · intro j hj
      simp only [Run.history, hw, List.scanl, applyWrite, List.dropLast, List.mem_cons,
        List.not_mem_nil, or_false] at hj
      rcases hj with rfl | rfl <;> rfl
    · simp [Run.history, Run.job, hw, List.scanl, applyWrite]
    · simp [Run.job, hw, applyWrite, Job.terminal]
  · refine ⟨⟨[JobWrite.FilePath f], "completed", by simp [hw], Or.inl rfl, by simp⟩, ?_, ?_, ?_⟩
    · intro j hj
      simp only [Run.history, hw, List.scanl, applyWrite, List.dropLast, List.mem_cons,
        List.not_mem_nil, or_false] at hj
      rcases hj with rfl | rfl <;> rfl
    · simp [Run.history, Run.job, hw, List.scanl, applyWrite]
    · simp [Run.job, hw, applyWrite, Job.terminal]
  · refine ⟨⟨[JobWrite.FilePath f, JobWrite.Error (some e)], "failed", by simp [hw], Or.inr rfl,
      by simp⟩, ?_, ?_, ?_⟩
    · intro j hj
      simp only [Run.history, hw, List.scanl, applyWrite, List.dropLast, List.mem_cons,
        List.not_mem_nil, or_false] at hj
      rcases hj with rfl | rfl | rfl <;> rfl
    · simp [Run.history, Run.job, hw, List.scanl, applyWrite]
    · simp [Run.job, hw, applyWrite, Job.terminal]
  · refine ⟨⟨[JobWrite.FilePath f, JobWrite.FilePath g], "completed", by simp [hw], Or.inl rfl,
      by simp⟩, ?_, ?_, ?_⟩
    · intro j hj
      simp only [Run.history, hw, List.scanl, applyWrite, List.dropLast, List.mem_cons,
        List.not_mem_nil, or_false] at hj
      rcases hj with rfl | rfl | rfl <;> rfl
    · simp [Run.history, Run.job, hw, List.scanl, applyWrite]
    · simp [Run.job, hw, applyWrite, Job.terminal]

/-- C7 on a ProcessYouTube job whose download and extraction both succeed: the job
starts non-terminal, its goroutine assigns the downloaded file, then the extracted file,
then the status "completed". -/
theorem C7_status_forward_only_witness :
    Job.terminal { ID := "y1", Status := "processing", FilePath := "", Error := none } = false ∧
      Job.terminal
          (Run.job
            { start := { ID := "y1", Status := "processing", FilePath := "", Error := none }
              writes := [JobWrite.FilePath "uploads/y1.mp3", JobWrite.FilePath "processed/x1.mp3",
                         JobWrite.Status "completed"] }) = true :=
  have h := C7_status_forward_only JobKind.youtube
    { start := { ID := "y1", Status := "processing", FilePath := "", Error := none }
      writes := [JobWrite.FilePath "uploads/y1.mp3", JobWrite.FilePath "processed/x1.mp3",
                 JobWrite.Status "completed"] }
    (JobRun.youtube
      { Jobs := [], workerPool := { maxWorkers := 5, sem := { cap := 5, len := 0 }, jobs := [] } }
      "y1" "https://youtu.be/v" 10 0
      { Jobs := [("y1", { ID := "y1", Status := "processing", FilePath := "", Error := none })]
        workerPool := { maxWorkers := 5, sem := { cap := 5, len := 0 }, jobs := [] } }
      { ytErr := none, globFiles := ["uploads/y1.mp3"], globErr := none, extractID := "x1"
        extract := { ctxErr := none, pickSend := true, cancelled := false, ffmpegErr := none } }
      { run := { start := { ID := "y1", Status := "processing", FilePath := "", Error := none }
                 writes := [JobWrite.FilePath "uploads/y1.mp3",
                            JobWrite.FilePath "processed/x1.mp3", JobWrite.Status "completed"] }
        extract := some
          { run := { start := { ID := "x1", Status := "processing", FilePath := "", Error := none }
                     writes := [JobWrite.FilePath "processed/x1.mp3", JobWrite.Status "completed"] }
            pool := { maxWorkers := 5, sem := { cap := 5, len := 0 }, jobs := [] }
            calls := [PoolOp.AcquireWorker extractCtx none true "x1", PoolOp.ReleaseWorker "x1"] }
        proc :=
          { Jobs := [("x1", { ID := "x1", Status := "completed", FilePath := "processed/x1.mp3"
                              Error := none }),
                     ("y1", { ID := "y1", Status := "processing", FilePath := "", Error := none })]
            workerPool := { maxWorkers := 5, sem := { cap := 5, len := 0 }, jobs := [] } } }
      (by decide) (by decide))
  ⟨h.1, h.2.2.2.2⟩

/-- C8 fails on the code: for the request of the test "Process Media - Success" handled
by the real processor, the handler reads the FilePath of the download job as soon as
DownloadMedia has returned, when the goroutine has assigned nothing yet, so ExtractAudio
receives the empty path; the download, which succeeds, ends "completed" with the
FilePath "uploads/u1.mp4". -/
theorem C8_extract_receives_empty_path :
    (processHandler
        (realProcessor (fun n => if n = 0 then "u1" else "u2") none none none 0)
        (some { URL := "http://example.com/video.mp4", StartTime := 0, Duration := 60 })
        { proc := { Jobs := []
                    workerPool := { maxWorkers := 5, sem := { cap := 5, len := 0 }, jobs := [] } }
          drawn := 0 }).calls =
        [ProcCall.DownloadMedia "http://example.com/video.mp4", ProcCall.ExtractAudio "" 0 60] ∧
      (DownloadMedia_go
          { ID := "u1", Status := "downloading", FilePath := "", Error := none }
          "http://example.com/video.mp4" none none none).job =
        { ID := "u1", Status := "completed", FilePath := "uploads/u1.mp4", Error := none } := by
  decide

/-- C9: for a request whose URL is non-empty and not a YouTube URL, with start_time > 0
or duration > 0, and a processor whose DownloadMedia returns a job and no error and
whose ExtractAudio then returns a job and no error: the handler calls DownloadMedia with
the URL, then ExtractAudio with the FilePath of the job DownloadMedia returned and the
start_time and duration of the request, makes no other call, and responds 200 with
job_id and status the ID and Status of the job ExtractAudio returned. -/
theorem C9_process_download_then_extract {σ : Type} (proc : MediaProcessorInterface σ)
    (req : MediaRequest) (s s1 s2 : σ) (j1 j2 : Job) (hurl : req.URL ≠ "")
    (hyt : isYouTubeURL req.URL = false) (hseg : req.StartTime > 0 ∨ req.Duration > 0)
    (hd : proc.DownloadMedia req.URL s = ((some j1, none), s1))
    (he : proc.ExtractAudio j1.FilePath req.StartTime req.Duration s1 = ((some j2, none), s2)) :
    (processHandler proc (some req) s).calls =
        [ProcCall.DownloadMedia req.URL,
         ProcCall.ExtractAudio j1.FilePath req.StartTime req.Duration] ∧
      (processHandler proc (some req) s).response =
        some { status := 200
               body := [("job_id", Value.str j2.ID), ("status", Value.str j2.Status)] } ∧
      (processHandler proc (some req) s).state = s2 := by
  simp [processHandler, hurl, hyt, hseg, hd, he, processRespond]

/-- C9 on the test "Process Media - Success". -/
theorem C9_process_download_then_extract_witness :
    (processHandler mockProcessor
        (some { URL := "http://example.com/video.mp4", StartTime := 0, Duration := 60 })
        []).calls =
        [ProcCall.DownloadMedia "http://example.com/video.mp4",
         ProcCall.ExtractAudio "test-file-path" 0 60] ∧
      (processHandler mockProcessor
        (some { URL := "http://example.com/video.mp4", StartTime := 0, Duration := 60 })
        []).response =
        some { status := 200
               body := [("job_id", Value.str "test-job-id"), ("status", Value.str "completed")] } ∧
      (processHandler mockProcessor
        (some { URL := "http://example.com/video.mp4", StartTime := 0, Duration := 60 })
        []).state =
        [ProcCall.DownloadMedia "http://example.com/video.mp4",
         ProcCall.ExtractAudio "test-file-path" 0 60] :=
  C9_process_download_then_extract mockProcessor
    { URL := "http://example.com/video.mp4", StartTime := 0, Duration := 60 }
    [] [ProcCall.DownloadMedia "http://example.com/video.mp4"]
    [ProcCall.DownloadMedia "http://example.com/video.mp4",
     ProcCall.ExtractAudio "test-file-path" 0 60]
    { ID := "test-job-id", Status := "downloaded", FilePath := "test-file-path", Error := none }
    { ID := "test-job-id", Status := "completed", FilePath := "", Error := none }
    (by decide) (by decide) (by decide) rfl rfl

/-- C10: on a processor made by NewMediaProcessor, GetJob returns nil for every id that
no call of DownloadMedia, ExtractAudio or ProcessYouTube has returned, whatever the
goroutines have assigned meanwhile; when the processor's GetJob returns nil the status
handler responds 404 with the error "Job not found"; when it returns a job the handler
responds 200 with the ID, Status, FilePath and Error of that job. -/
theorem C10_unknown_job_not_found :
    (∀ p0 ops id, NewMediaProcessor = some p0 → id ∉ returnedIDs p0 ops →
        MediaProcessor.GetJob (runProc p0 ops) id = none) ∧
      (∀ (σ : Type) (proc : MediaProcessorInterface σ) (id : String) (s s1 : σ),
        proc.GetJob id s = (none, s1) →
        (statusHandler proc id s).response =
          some { status := 404, body := [("error", Value.str "Job not found")] }) ∧
      ∀ (σ : Type) (proc : MediaProcessorInterface σ) (id : String) (s s1 : σ) (job : Job),
        proc.GetJob id s = (some job, s1) →
        (statusHandler proc id s).response =
          some { status := 200
                 body := [("job_id", Value.str job.ID), ("status", Value.str job.Status),
                          ("filepath", Value.str job.FilePath),
                          ("error", Value.err job.Error)] } := by
  refine ⟨?_, ?_, ?_⟩
  · intro p0 ops id hnew hid
    have hjobs : p0.Jobs = [] := by
      simp only [NewMediaProcessor, NewFFmpegWorkerPool] at hnew
      simp only [show ¬ ((5 : Int) < 0) by decide, if_false, Option.some.injEq] at hnew
      subst hnew
      rfl
    unfold MediaProcessor.GetJob
    rw [mapGet_eq_none_iff]
    intro hmem
    rcases runProc_keys ops p0 id hmem with h | h
    · simp [hjobs, mapKeys] at h
    · exact hid h
  · intro σ proc id s s1 h
    simp [statusHandler, h]
  · intro σ proc id s s1 job h
    simp [statusHandler, h]

/-- C10 on a processor that has returned the download job "u1" and in which the
goroutine has assigned an error: GetJob of "non-existent" is nil. -/
theorem C10_unknown_job_not_found_witness :
    MediaProcessor.GetJob
        (runProc
          { Jobs := [], workerPool := { maxWorkers := 5, sem := { cap := 5, len := 0 }, jobs := [] } }
          [ProcOp.DownloadMedia "u1" "http://example.com/video.mp4",
           ProcOp.goWrite "u1" (JobWrite.Error (some ⟨"no such host"⟩))])
        "non-existent" = none :=
  C10_unknown_job_not_found.1
    { Jobs := [], workerPool := { maxWorkers := 5, sem := { cap := 5, len := 0 }, jobs := [] } }
    [ProcOp.DownloadMedia "u1" "http://example.com/video.mp4",
     ProcOp.goWrite "u1" (JobWrite.Error (some ⟨"no such host"⟩))]
    "non-existent" (by decide) (by decide)

end Baggins
